import Mathlib

/-!
Shallow embedding of the token-gated community subsystem of SOLANUS
(`src/solanus/web3anustools/token-gated-community-tool.py`, class
`TokenGatedCommunityTool`, on top of `socialfi-base-tool.py`).

Modelling conventions:
* Python dicts used as keyed stores become association lists
  (`List (String × α)`) with `lookupKey`/`setKey` mirroring `d[k]` reads
  and `d[k] = v` writes (replace-in-place, insertion order preserved).
* `time.time()` becomes an explicit integer parameter `now`, one value per
  operation call (the code reads the clock several times inside one call;
  the claims tolerate this collapse, and `format_timestamp` is modelled as
  the identity on integer seconds, which is injective like ISO rendering).
* Token amounts (`float` in Python) become `ℚ`.
* The hash-based identifier generators (`hashlib.md5`, `hashlib.sha256`)
  are modelled by their (injective) pre-image strings; no claim depends on
  the hash value itself.
* `base64(json(...))` encoding of a token is a bijection onto its payload,
  so a credential is modelled as its decoded payload; an undecodable
  credential is `Except.error` carrying the exception message.
* The external holdings lookups (`_simulate_token_holdings`,
  `_simulate_nft_holdings`, `_simulate_multi_token_verification`) are not
  present under `src/` (the file is cut off at line 660); they are
  abstracted as an `Oracle` parameter whose fields may also raise
  (`Except.error`), which models a Python exception escaping the lookup.
* A Python exception escaping an operation is `Except.error` in the
  operation's result type; `execute`'s `try`/`except` is the final `match`
  that converts it to the uniform error envelope.
-/

/-- Association-list lookup, mirroring Python `d[k]` / `k in d`. -/
def lookupKey {α : Type} (k : String) : List (String × α) → Option α
  | [] => none
  | (k', v) :: rest => if k' = k then some v else lookupKey k rest

/-- Association-list write, mirroring Python `d[k] = v`: replaces the
binding in place when the key exists, otherwise appends (insertion
order, as for a Python dict). -/
def setKey {α : Type} (k : String) (v : α) : List (String × α) → List (String × α)
  | [] => [(k, v)]
  | (k', v') :: rest => if k' = k then (k, v) :: rest else (k', v') :: setKey k v rest

/-- Python truthiness of an optional string: `None` and `""` are falsy. -/
def truthy (o : Option String) : Bool := decide (o.getD "" ≠ "")

/-- Python `str(...)` rendering of an optional string inside an f-string
(`None` prints as "None"). -/
def optStr : Option String → String
  | none => "None"
  | some s => s

/-- Access requirements of a community (`community["requirements"]`).
`_create_community` always populates every key, so the fields are total
except the two genuinely optional addresses. -/
structure Requirements where
  token_type : String
  token_address : Option String
  min_token_amount : ℚ
  nft_collection_address : Option String
deriving DecidableEq, Repr

/-- The three role buckets of `community["members"]`, in dict insertion
order: admins, moderators, members. -/
structure Members where
  admins : List String
  moderators : List String
  members : List String
deriving DecidableEq, Repr

/-- `community["stats"]` counters. -/
structure Stats where
  total_members : Nat
  access_requests : Nat
  access_granted : Nat
  access_denied : Nat
deriving DecidableEq, Repr

/-- A community record as built by `_create_community`. -/
structure Community where
  id : String
  name : String
  description : String
  created_at : Int
  created_by : String
  requirements : Requirements
  members : Members
  stats : Stats
deriving DecidableEq, Repr

/-- A server-side access-token record (`token_data` in
`_generate_access_token`): every field is present. -/
structure TokenData where
  token_id : String
  community_id : String
  wallet_address : String
  access_level : String
  issued_at : Int
  expires_at : Int
deriving DecidableEq, Repr

/-- A decoded credential as seen by `_verify_token`: an arbitrary JSON
object read with `.get`, so every field may be absent. -/
structure TokenPayload where
  token_id : Option String
  community_id : Option String
  wallet_address : Option String
  access_level : Option String
  issued_at : Option Int
  expires_at : Option Int
deriving DecidableEq, Repr

/-- The payload a well-formed credential decodes to (the code encodes
`token_data` with `base64(json(...))`, a bijection). -/
def TokenData.toPayload (d : TokenData) : TokenPayload :=
  ⟨some d.token_id, some d.community_id, some d.wallet_address,
   some d.access_level, some d.issued_at, some d.expires_at⟩

/-- One row of the `_list_communities` result. -/
structure CommunitySummary where
  id : String
  name : String
  description : String
  requirements : Requirements
  total_members : Nat
  created_at : Int
deriving DecidableEq, Repr

/-- The nested stats object of the `_get_community_stats` result. -/
structure StatsReport where
  total_members : Nat
  admin_count : Nat
  moderator_count : Nat
  member_count : Nat
  access_requests : Nat
  access_granted : Nat
  access_denied : Nat
deriving DecidableEq, Repr

/-- The `result` dictionaries the operations build, one constructor per
shape. Field order follows the source. -/
inductive Payload where
  | createRes (community_id name : String) (requirements : Requirements)
      (created_at : Int) (message : String)
  | configureRes (community_id : String) (requirements : Requirements)
      (updated_at : Int) (message : String)
  | alreadyMemberRes (community_id wallet_address : String) (has_access : Bool)
      (reason : String) (verification_time : Int)
  | fungibleRes (community_id wallet_address : String) (has_access : Bool)
      (token_address : Option String) (required_amount actual_amount : ℚ)
      (blockchain : String) (verification_time : Int)
  | nftRes (community_id wallet_address : String) (has_access : Bool)
      (nft_collection : Option String) (owned_nfts : List String)
      (required_nfts : Nat) (blockchain : String) (verification_time : Int)
  | multiRes (community_id wallet_address : String) (has_access : Bool)
      (requirements : Requirements) (blockchain : String) (verification_time : Int)
  | genTokenRes (access_token : TokenPayload)
      (token_id community_id wallet_address access_level : String)
      (issued_at expires_at : Int) (message : String)
  | verifyTokenRes (token_id : String) (is_valid : Bool) (community_id : String)
      (wallet_address access_level : Option String)
      (expires_at time_remaining_seconds : Int)
  | listRes (communities : List CommunitySummary) (count : Nat) (timestamp : Int)
  | statsRes (community_id name : String) (stats : StatsReport)
      (requirements : Requirements) (created_at timestamp : Int)
  | addMemberRes (community_id wallet_address access_level message : String)
  | removeMemberRes (community_id wallet_address message : String)
  | memberStatusRes (community_id wallet_address : String) (is_member : Bool)
      (access_level : Option String)
  | getMembersRes (community_id : String)
      (admins moderators members : List String)
deriving DecidableEq, Repr

/-- Python `result.get("has_access", False)` over the payload shapes. -/
def Payload.hasAccessD : Payload → Bool
  | .alreadyMemberRes _ _ h _ _ => h
  | .fungibleRes _ _ h _ _ _ _ _ => h
  | .nftRes _ _ h _ _ _ _ _ => h
  | .multiRes _ _ h _ _ _ => h
  | _ => false

/-- The tool's constant `name` attribute. -/
def toolName : String := "token_gated_community"

/-- The uniform result envelope (`ToolResult` from the framework, fields
per spec section 6: `{status: success|error, result?, error?}` plus the
tool name). -/
structure ToolResult where
  tool_name : String
  status : String
  result : Option Payload
  error : Option String
deriving DecidableEq, Repr

/-- `ToolResult(tool_name=self.name, status="error", error=msg)`. -/
def mkError (msg : String) : ToolResult := ⟨toolName, "error", none, some msg⟩

/-- `ToolResult.success(tool_name=self.name, result=p)`. -/
def mkSuccess (p : Payload) : ToolResult := ⟨toolName, "success", some p, none⟩

/-- Python `verify_result.result.get("has_access", False)` (the result
attribute is `None` on error envelopes, never dereferenced there). -/
def ToolResult.resultHasAccess (r : ToolResult) : Bool :=
  match r.result with
  | some p => p.hasAccessD
  | none => false

/-- One verification-cache entry: `{"timestamp": ..., "data": ...}`. -/
structure CacheEntry where
  timestamp : Int
  data : Payload
deriving DecidableEq, Repr

/-- The tool instance's mutable state: the three in-memory stores plus
the wallet loaded by the base class (`self._wallet_address`). -/
structure CState where
  communities : List (String × Community)
  access_tokens : List (String × TokenData)
  verification_cache : List (String × CacheEntry)
  wallet_address : Option String
deriving DecidableEq, Repr

/-- `self.cache_expiration = 300`. -/
def cache_expiration : Int := 300

/-- `format_timestamp` of the base tool: ISO-renders its argument, or the
current time when the argument is `None`; modelled as the underlying
integer seconds. -/
def format_timestamp (t : Option Int) (now : Int) : Int := t.getD now

/-- Python `not s` for an optional string argument (`None` or `""`). -/
def blankOpt (o : Option String) : Bool := decide (o.getD "" = "")

/-- The community id generated at creation:
`f"community_{int(time.time())}_{hashlib.md5(name).hexdigest()[:8]}"`,
with the md5 prefix modelled by the (injective) name itself. -/
def communityId (now : Int) (name : String) : String :=
  "community_" ++ toString now ++ "_" ++ name

/-- `_create_community` (source lines 183-243). -/
def createCommunity (s : CState) (community_name description : String)
    (token_address : Option String) (min_token_amount : ℚ)
    (token_type : String) (nft_collection_address : Option String)
    (now : Int) : CState × ToolResult :=
  if community_name = "" then
    (s, mkError "Community name is required")
  else if !truthy token_address && !truthy nft_collection_address then
    (s, mkError "Either token_address or nft_collection_address is required")
  else
    let cid := communityId now community_name
    let community : Community :=
      { id := cid
        name := community_name
        description := description
        created_at := format_timestamp none now
        created_by := if truthy s.wallet_address then s.wallet_address.getD "" else "anonymous"
        requirements :=
          { token_type := token_type
            token_address := token_address
            min_token_amount := min_token_amount
            nft_collection_address := nft_collection_address }
        members :=
          { admins := if truthy s.wallet_address then [s.wallet_address.getD ""] else []
            moderators := []
            members := [] }
        stats := ⟨0, 0, 0, 0⟩ }
    ({ s with communities := setKey cid community s.communities },
     mkSuccess (.createRes cid community_name community.requirements
        community.created_at "Community created successfully"))

/-- The requirement-update chain of `_configure_requirements`
(lines 267-280). Note the Python truthiness tests: the three
string-valued arguments only overwrite when non-empty
(`if token_type:`), while `min_token_amount` overwrites whenever it is
not `None` (`if min_token_amount is not None:`). -/
def applyReqUpdate (r0 : Requirements) (token_address : Option String)
    (min_token_amount : Option ℚ)
    (token_type nft_collection_address : Option String) : Requirements :=
  let r := r0
  let r := if truthy token_type then { r with token_type := token_type.getD "" } else r
  let r := if truthy token_address then { r with token_address := token_address } else r
  let r := match min_token_amount with
           | some m => { r with min_token_amount := m }
           | none => r
  if truthy nft_collection_address then
    { r with nft_collection_address := nft_collection_address } else r

/-- `_configure_requirements` (source lines 245-294). -/
def configureRequirements (s : CState) (community_id token_address : Option String)
    (min_token_amount : Option ℚ) (token_type nft_collection_address : Option String)
    (now : Int) : CState × ToolResult :=
  if blankOpt community_id then
    (s, mkError ("Community with ID " ++ optStr community_id ++ " not found"))
  else
    match lookupKey (community_id.getD "") s.communities with
    | none => (s, mkError ("Community with ID " ++ optStr community_id ++ " not found"))
    | some community =>
      if truthy s.wallet_address ∧ s.wallet_address.getD "" ∉ community.members.admins then
        (s, mkError "Only community admins can configure requirements")
      else
        let r := applyReqUpdate community.requirements token_address min_token_amount
          token_type nft_collection_address
        let community' := { community with requirements := r }
        ({ s with communities := setKey (community_id.getD "") community' s.communities },
         mkSuccess (.configureRes (community_id.getD "") r (format_timestamp none now)
            "Community requirements updated successfully"))

/-- The external holdings lookups invoked by `_verify_access`
(`_simulate_token_holdings`, `_simulate_nft_holdings`,
`_simulate_multi_token_verification`); `src/` truncates the file before
any definition of them, so they are abstracted as a parameter. Each field
takes the wallet address, the relevant requirement data and the
blockchain, and returns either the looked-up value or `Except.error`,
which models a Python exception (in particular an `AttributeError` when
the method does not exist at all). -/
structure Oracle where
  tokenHoldings : String → Option String → String → Except String ℚ
  nftHoldings : String → Option String → String → Except String (List String)
  multiVerify : String → Requirements → String → Except String Bool

/-- The membership test of `_verify_access` lines 318-320: wallet in any
of the three role buckets. -/
def Community.isMemberWallet (c : Community) (w : String) : Bool :=
  decide (w ∈ c.members.admins) || decide (w ∈ c.members.moderators) ||
    decide (w ∈ c.members.members)

/-- The cache key `f"{wallet_address}_{community_id}_{blockchain}"`. -/
def cacheKey (w cid chain : String) : String := w ++ "_" ++ cid ++ "_" ++ chain

/-- The cache consultation of `_verify_access` lines 334-342: returns the
cached data when an entry exists and is younger than the TTL. -/
def cacheFresh (s : CState) (key : String) (now : Int) : Option Payload :=
  match lookupKey key s.verification_cache with
  | some e => if now - e.timestamp < cache_expiration then some e.data else none
  | none => none

/-- The stats update of `_verify_access` lines 399-404. -/
def bumpStats (st : Stats) (has_access : Bool) : Stats :=
  { st with
    access_requests := st.access_requests + 1
    access_granted := st.access_granted + (if has_access then 1 else 0)
    access_denied := st.access_denied + (if has_access then 0 else 1) }

/-- The token-holdings dispatch of `_verify_access` (lines 344-397):
branch on `requirements["token_type"]`, query the corresponding lookup
and build the result dictionary. Returns the `has_access` decision
together with the result payload; `Except.error` is an exception raised
by the lookup. -/
def computeVerification (ora : Oracle) (req : Requirements)
    (cid w chain : String) (now : Int) : Except String (Bool × Payload) :=
  if req.token_type = "fungible" then
    match ora.tokenHoldings w req.token_address chain with
    | .error e => .error e
    | .ok holdings =>
      let has_access := decide (holdings ≥ req.min_token_amount)
      .ok (has_access, .fungibleRes cid w has_access req.token_address
            req.min_token_amount holdings chain (format_timestamp none now))
  else if req.token_type = "nft" then
    match ora.nftHoldings w req.nft_collection_address chain with
    | .error e => .error e
    | .ok owned_nfts =>
      let has_access := decide (owned_nfts.length > 0)
      .ok (has_access, .nftRes cid w has_access req.nft_collection_address
            owned_nfts 1 chain (format_timestamp none now))
  else
    match ora.multiVerify w req chain with
    | .error e => .error e
    | .ok has_access =>
      .ok (has_access, .multiRes cid w has_access req chain
            (format_timestamp none now))

/-- `_verify_access` (source lines 296-415). `Except.error` is a Python
exception escaping the operation (only the holdings lookups can raise). -/
def verifyAccess (ora : Oracle) (s : CState)
    (community_id wallet_address : Option String) (blockchain : String)
    (now : Int) : Except String (CState × ToolResult) :=
  if blankOpt community_id then
    .ok (s, mkError ("Community with ID " ++ optStr community_id ++ " not found"))
  else
    match lookupKey (community_id.getD "") s.communities with
    | none => .ok (s, mkError ("Community with ID " ++ optStr community_id ++ " not found"))
    | some community =>
      if blankOpt wallet_address then
        .ok (s, mkError "Wallet address is required")
      else
        let cid := community_id.getD ""
        let w := wallet_address.getD ""
        if community.isMemberWallet w then
          .ok (s, mkSuccess (.alreadyMemberRes cid w true "Already a member"
                  (format_timestamp none now)))
        else
          let key := cacheKey w cid blockchain
          match cacheFresh s key now with
          | some d => .ok (s, mkSuccess d)
          | none =>
            match computeVerification ora community.requirements cid w blockchain now with
            | .error e => .error e
            | .ok (has_access, result) =>
              let community' := { community with stats := bumpStats community.stats has_access }
              let s' := { s with
                communities := setKey cid community' s.communities
                verification_cache := setKey key ⟨now, result⟩ s.verification_cache }
              .ok (s', mkSuccess result)

/-- The token id
`hashlib.sha256(f"{wallet}_{community}_{time.time()}").hexdigest()`,
modelled by its pre-image string. -/
def tokenIdHash (w cid : String) (now : Int) : String :=
  w ++ "_" ++ cid ++ "_" ++ toString now

/-- `_generate_access_token` (source lines 417-474). The nested
`_verify_access` call runs with the default blockchain "solana"; its
state effects (stats, cache) persist even when the token is then
refused. -/
def generateAccessToken (ora : Oracle) (s : CState)
    (community_id wallet_address : Option String) (access_level : String)
    (expiration : Int) (now : Int) : Except String (CState × ToolResult) :=
  if blankOpt community_id then
    .ok (s, mkError ("Community with ID " ++ optStr community_id ++ " not found"))
  else
    match lookupKey (community_id.getD "") s.communities with
    | none => .ok (s, mkError ("Community with ID " ++ optStr community_id ++ " not found"))
    | some _ =>
      if blankOpt wallet_address then
        .ok (s, mkError "Wallet address is required")
      else
        match verifyAccess ora s community_id wallet_address "solana" now with
        | .error e => .error e
        | .ok (s1, verify_result) =>
          if verify_result.status ≠ "success" ∨ !verify_result.resultHasAccess then
            .ok (s1, mkError "Wallet does not have access to this community")
          else
            let cid := community_id.getD ""
            let w := wallet_address.getD ""
            let token_id := tokenIdHash w cid now
            let token_data : TokenData :=
              ⟨token_id, cid, w, access_level, now, now + expiration⟩
            let s2 := { s1 with access_tokens := setKey token_id token_data s1.access_tokens }
            .ok (s2, mkSuccess (.genTokenRes token_data.toPayload token_id cid w
                  access_level (format_timestamp (some token_data.issued_at) now)
                  (format_timestamp (some token_data.expires_at) now)
                  "Access token generated successfully"))

/-- `_verify_token` (source lines 476-536). The input is the decoded
credential (`Except.error` for an undecodable string, caught by the
operation's own `try`/`except`); every returned field and the expiry
decision come from the supplied payload, only the existence of
`token_id` is checked against the server store. -/
def verifyToken (s : CState) (access_token : Option (Except String TokenPayload))
    (now : Int) : ToolResult :=
  match access_token with
  | none => mkError "Access token is required"
  | some (.error e) => mkError ("Error verifying token: " ++ e)
  | some (.ok p) =>
    match p.token_id with
    | none => mkError "Invalid access token"
    | some tid =>
      match lookupKey tid s.access_tokens with
      | none => mkError "Invalid access token"
      | some _stored =>
        if now > p.expires_at.getD 0 then
          mkError "Access token has expired"
        else
          match p.community_id with
          | none => mkError "Community no longer exists"
          | some cid =>
            match lookupKey cid s.communities with
            | none => mkError "Community no longer exists"
            | some _ =>
              mkSuccess (.verifyTokenRes tid true cid p.wallet_address
                p.access_level (format_timestamp p.expires_at now)
                (p.expires_at.getD 0 - now))

/-- `_list_communities` (source lines 538-559). -/
def listCommunities (s : CState) (now : Int) : CState × ToolResult :=
  let rows := s.communities.map (fun kv =>
    CommunitySummary.mk kv.1 kv.2.name kv.2.description kv.2.requirements
      kv.2.stats.total_members kv.2.created_at)
  (s, mkSuccess (.listRes rows rows.length (format_timestamp none now)))

/-- `_get_community_stats` (source lines 561-600). Recomputes
`total_members` from the bucket sizes and writes it back into the stored
community (in-place dict mutation in the source). -/
def getCommunityStats (s : CState) (community_id : Option String)
    (now : Int) : CState × ToolResult :=
  if blankOpt community_id then
    (s, mkError ("Community with ID " ++ optStr community_id ++ " not found"))
  else
    match lookupKey (community_id.getD "") s.communities with
    | none => (s, mkError ("Community with ID " ++ optStr community_id ++ " not found"))
    | some community =>
      let cid := community_id.getD ""
      let admin_count := community.members.admins.length
      let moderator_count := community.members.moderators.length
      let member_count := community.members.members.length
      let total := admin_count + moderator_count + member_count
      let community' := { community with stats := { community.stats with total_members := total } }
      ({ s with communities := setKey cid community' s.communities },
       mkSuccess (.statsRes cid community.name
          ⟨total, admin_count, moderator_count, member_count,
           community.stats.access_requests, community.stats.access_granted,
           community.stats.access_denied⟩
          community.requirements community.created_at (format_timestamp none now)))

/-- One step of the `_add_member` loop over `community["members"].items()`
(lines 638-653) for a single role bucket: `none` models the early
`return` taken when the wallet already holds the requested role,
otherwise the bucket with the wallet's first occurrence removed
(`list.remove`). -/
def processRole (bucket : List String) (roleName roleKey w : String) :
    Option (List String) :=
  if w ∈ bucket then
    if roleName = roleKey then none else some (bucket.erase w)
  else some bucket

/-- The whole loop of lines 638-653, iterating the buckets in dict
insertion order (admins, moderators, members). `Sum.inl` is the early
"already a `access_level`" return together with the bucket state at that
point (removals performed at earlier roles persist, since the source
mutates the lists in place); `Sum.inr` is normal fall-through. -/
def addMemberScan (m : Members) (roleKey w : String) : Members ⊕ Members :=
  match processRole m.admins "admins" roleKey w with
  | none => Sum.inl m
  | some a' =>
    match processRole m.moderators "moderators" roleKey w with
    | none => Sum.inl { m with admins := a' }
    | some mo' =>
      match processRole m.members "members" roleKey w with
      | none => Sum.inl { m with admins := a', moderators := mo' }
      | some me' => Sum.inr ⟨a', mo', me'⟩

/-- The append of lines 655-657: `community["members"][role_key].append(w)`.
After the validation at lines 620-625 the key is one of the three buckets. -/
def appendRole (m : Members) (roleKey w : String) : Members :=
  if roleKey = "admins" then { m with admins := m.admins ++ [w] }
  else if roleKey = "moderators" then { m with moderators := m.moderators ++ [w] }
  else { m with members := m.members ++ [w] }

/-- Modelled from the spec: the tail of `_add_member` after the append —
`src/` truncates the file mid-statement at line 660
(`community["stats"]["total_members"] =`). Per spec sections 3 and 4.1,
`total_members` is recomputed from the membership size and the operation
returns a success envelope reporting the assigned role. -/
def addMemberTail (cid w lvl : String) (m : Members) (st : Stats) :
    Stats × Payload :=
  ({ st with total_members := m.admins.length + m.moderators.length + m.members.length },
   .addMemberRes cid w lvl "Member added successfully")

/-- The authorization test of `_add_member` lines 629-636: granting
moderator or admin requires a loaded caller wallet that is an admin of
the community. -/
def addMemberAuthFail (s : CState) (c : Community) (access_level : String) : Prop :=
  (access_level ∈ (["moderator", "admin"] : List String)) ∧
    (¬ truthy s.wallet_address ∨ s.wallet_address.getD "" ∉ c.members.admins)

instance (s : CState) (c : Community) (lvl : String) :
    Decidable (addMemberAuthFail s c lvl) := by
  unfold addMemberAuthFail
  exact inferInstance

/-- `_add_member` (source lines 602-660 plus the spec-modelled tail). -/
def addMember (s : CState) (community_id wallet_address : Option String)
    (access_level : String) (_now : Int) : CState × ToolResult :=
  if blankOpt community_id then
    (s, mkError ("Community with ID " ++ optStr community_id ++ " not found"))
  else
    match lookupKey (community_id.getD "") s.communities with
    | none => (s, mkError ("Community with ID " ++ optStr community_id ++ " not found"))
    | some community =>
      if blankOpt wallet_address then
        (s, mkError "Wallet address is required")
      else if access_level ∉ ["member", "moderator", "admin"] then
        (s, mkError ("Invalid access level: " ++ access_level))
      else
        let cid := community_id.getD ""
        let w := wallet_address.getD ""
        if addMemberAuthFail s community access_level then
          (s, mkError "Only community admins can add moderators or admins")
        else
          let roleKey := access_level ++ "s"
          match addMemberScan community.members roleKey w with
          | Sum.inl m' =>
            ({ s with communities := setKey cid { community with members := m' } s.communities },
             mkSuccess (.addMemberRes cid w access_level
                ("Wallet is already a " ++ access_level ++ " of this community")))
          | Sum.inr m' =>
            let m'' := appendRole m' roleKey w
            let (st', payload) := addMemberTail cid w access_level m'' community.stats
            let community' := { community with members := m'', stats := st' }
            ({ s with communities := setKey cid community' s.communities },
             mkSuccess payload)

/-- Modelled from the spec: `_remove_member` lies entirely beyond the
point where `src/` truncates the file. Per spec section 4.1 it is a
straightforward mutation against the membership buckets (guards like its
siblings, removal of the wallet from its bucket, `total_members`
recomputed per section 3). -/
def removeMember (s : CState) (community_id wallet_address : Option String)
    (_now : Int) : CState × ToolResult :=
  if blankOpt community_id then
    (s, mkError ("Community with ID " ++ optStr community_id ++ " not found"))
  else
    match lookupKey (community_id.getD "") s.communities with
    | none => (s, mkError ("Community with ID " ++ optStr community_id ++ " not found"))
    | some community =>
      if blankOpt wallet_address then
        (s, mkError "Wallet address is required")
      else
        let cid := community_id.getD ""
        let w := wallet_address.getD ""
        if !community.isMemberWallet w then
          (s, mkError "Wallet is not a member of this community")
        else
          let m' : Members := ⟨community.members.admins.erase w,
            community.members.moderators.erase w, community.members.members.erase w⟩
          let st' := { community.stats with
            total_members := m'.admins.length + m'.moderators.length + m'.members.length }
          let community' := { community with members := m', stats := st' }
          ({ s with communities := setKey cid community' s.communities },
           mkSuccess (.removeMemberRes cid w "Member removed successfully"))

/-- Modelled from the spec: `_check_member_status` lies entirely beyond
the point where `src/` truncates the file. Per spec sections 4.1 and 8 it
is a straightforward lookup against the membership buckets reporting the
wallet's role; buckets are consulted in their insertion order, as
everywhere else in the source. -/
def checkMemberStatus (s : CState) (community_id wallet_address : Option String) :
    ToolResult :=
  if blankOpt community_id then
    mkError ("Community with ID " ++ optStr community_id ++ " not found")
  else
    match lookupKey (community_id.getD "") s.communities with
    | none => mkError ("Community with ID " ++ optStr community_id ++ " not found")
    | some community =>
      if blankOpt wallet_address then
        mkError "Wallet address is required"
      else
        let cid := community_id.getD ""
        let w := wallet_address.getD ""
        let role : Option String :=
          if w ∈ community.members.admins then some "admin"
          else if w ∈ community.members.moderators then some "moderator"
          else if w ∈ community.members.members then some "member"
          else none
        mkSuccess (.memberStatusRes cid w role.isSome role)

/-- Modelled from the spec: `_get_members` lies entirely beyond the point
where `src/` truncates the file. Per spec section 4.1 it is a
straightforward lookup, optionally filtered by access level. -/
def getMembers (s : CState) (community_id access_level : Option String) :
    ToolResult :=
  if blankOpt community_id then
    mkError ("Community with ID " ++ optStr community_id ++ " not found")
  else
    match lookupKey (community_id.getD "") s.communities with
    | none => mkError ("Community with ID " ++ optStr community_id ++ " not found")
    | some community =>
      let cid := community_id.getD ""
      match access_level with
      | none => mkSuccess (.getMembersRes cid community.members.admins
          community.members.moderators community.members.members)
      | some lvl =>
        if lvl = "admin" then
          mkSuccess (.getMembersRes cid community.members.admins [] [])
        else if lvl = "moderator" then
          mkSuccess (.getMembersRes cid [] community.members.moderators [])
        else if lvl = "member" then
          mkSuccess (.getMembersRes cid [] [] community.members.members)
        else mkError ("Invalid access level: " ++ lvl)

/-- The keyword arguments `execute` reads via `kwargs.get`. -/
structure Args where
  action : Option String
  community_id : Option String
  community_name : Option String
  description : Option String
  token_address : Option String
  min_token_amount : Option ℚ
  nft_collection_address : Option String
  token_type : Option String
  wallet_address : Option String
  access_level : Option String
  token_expiration : Option Int
  blockchain : Option String
  access_token : Option (Except String TokenPayload)

/-- The `if`/`elif` dispatch inside `execute`'s `try` block (source
lines 107-174): route the action, with the source's defaults, to the
operation; an unknown action yields the unknown-action error envelope.
`Except.error` is an exception escaping the dispatched operation. -/
def dispatchAction (ora : Oracle) (s : CState) (a : Args) (now : Int) :
    Except String (CState × ToolResult) :=
  if a.action = some "create_community" then
      .ok (createCommunity s (a.community_name.getD "") (a.description.getD "")
        a.token_address (a.min_token_amount.getD 1) (a.token_type.getD "fungible")
        a.nft_collection_address now)
    else if a.action = some "configure_requirements" then
      .ok (configureRequirements s a.community_id a.token_address
        a.min_token_amount a.token_type a.nft_collection_address now)
    else if a.action = some "verify_access" then
      verifyAccess ora s a.community_id a.wallet_address
        (a.blockchain.getD "solana") now
    else if a.action = some "generate_access_token" then
      generateAccessToken ora s a.community_id a.wallet_address
        (a.access_level.getD "member") (a.token_expiration.getD 86400) now
    else if a.action = some "verify_token" then
      .ok (s, verifyToken s a.access_token now)
    else if a.action = some "list_communities" then
      .ok (listCommunities s now)
    else if a.action = some "get_community_stats" then
      .ok (getCommunityStats s a.community_id now)
    else if a.action = some "add_member" then
      .ok (addMember s a.community_id a.wallet_address
        (a.access_level.getD "member") now)
    else if a.action = some "remove_member" then
      .ok (removeMember s a.community_id a.wallet_address now)
    else if a.action = some "check_member_status" then
      .ok (s, checkMemberStatus s a.community_id a.wallet_address)
    else if a.action = some "get_members" then
      .ok (s, getMembers s a.community_id a.access_level)
    else
      .ok (s, mkError ("Unknown token-gated community action: " ++ optStr a.action))

/-- `execute` (source lines 103-181): the dispatch wrapped in the
`try`/`except` that turns any escaping exception into the uniform error
envelope. -/
def execute (ora : Oracle) (s : CState) (a : Args) (now : Int) :
    CState × ToolResult :=
  match dispatchAction ora s a now with
  | .ok r => r
  | .error e =>
    (s, mkError ("Error executing token-gated community action " ++
      optStr a.action ++ ": " ++ e))

/-! ## Basic lemmas about the store primitives and the guards -/

@[simp] theorem lookupKey_setKey_self {α : Type} (k : String) (v : α) (l : List (String × α)) :
    lookupKey k (setKey k v l) = some v := by
  induction l with
  | nil => simp [lookupKey, setKey]
  | cons p rest ih =>
    obtain ⟨k', v'⟩ := p
    by_cases h : k' = k <;> simp [lookupKey, setKey, h, ih]

theorem lookupKey_setKey_ne {α : Type} {k k' : String} (v : α) (l : List (String × α))
    (h : k' ≠ k) : lookupKey k' (setKey k v l) = lookupKey k' l := by
  induction l with
  | nil => simp [lookupKey, setKey, Ne.symm h]
  | cons p rest ih =>
    obtain ⟨ka, va⟩ := p
    by_cases hk : ka = k
    · subst hk
      simp [lookupKey, setKey, Ne.symm h]
    · simp [lookupKey, setKey, hk, ih]

theorem mem_setKey {α : Type} {p : String × α} {k : String} {v : α}
    {l : List (String × α)} (h : p ∈ setKey k v l) : p = (k, v) ∨ p ∈ l := by
  induction l with
  | nil => simpa [setKey] using h
  | cons q rest ih =>
    by_cases hk : q.1 = k
    · rw [show setKey k v (q :: rest) = (k, v) :: rest by
        cases q; simp_all [setKey]] at h
      rcases List.mem_cons.mp h with h | h
      · exact Or.inl h
      · exact Or.inr (List.mem_cons_of_mem _ h)
    · rw [show setKey k v (q :: rest) = q :: setKey k v rest by
        cases q; simp_all [setKey]] at h
      rcases List.mem_cons.mp h with h | h
      · exact Or.inr (by simp [h])
      · rcases ih h with h | h
        · exact Or.inl h
        · exact Or.inr (List.mem_cons_of_mem _ h)

@[simp] theorem blankOpt_some (s : String) : blankOpt (some s) = decide (s = "") := rfl

@[simp] theorem blankOpt_none : blankOpt none = true := rfl

@[simp] theorem truthy_some (s : String) : truthy (some s) = decide (s ≠ "") := rfl

@[simp] theorem truthy_none : truthy none = false := rfl

/-! ## Path characterizations of `_verify_access` -/

/-- Already-member short circuit (lines 317-331): success, no state
change, no stats update. -/
theorem verifyAccess_member (ora : Oracle) (s : CState) {cid w : String}
    (chain : String) (now : Int) {c : Community}
    (hc : lookupKey cid s.communities = some c)
    (hcid : cid ≠ "") (hw : w ≠ "")
    (hmem : c.isMemberWallet w = true) :
    verifyAccess ora s (some cid) (some w) chain now =
      .ok (s, mkSuccess (.alreadyMemberRes cid w true "Already a member" now)) := by
  simp [verifyAccess, hc, hcid, hw, hmem, format_timestamp]

/-- Fresh cache hit (lines 333-342): the cached data is returned verbatim
and the state is untouched. -/
theorem verifyAccess_hit (ora : Oracle) (s : CState) {cid w : String}
    {chain : String} {now : Int} {c : Community} {d : Payload}
    (hc : lookupKey cid s.communities = some c)
    (hcid : cid ≠ "") (hw : w ≠ "")
    (hmem : c.isMemberWallet w = false)
    (hcache : cacheFresh s (cacheKey w cid chain) now = some d) :
    verifyAccess ora s (some cid) (some w) chain now = .ok (s, mkSuccess d) := by
  simp [verifyAccess, hc, hcid, hw, hmem, hcache]

/-- Cache miss (lines 344-415): the holdings dispatch decides, the stats
are bumped and the result is cached under the current timestamp. -/
theorem verifyAccess_miss (ora : Oracle) (s : CState) {cid w : String}
    {chain : String} {now : Int} {c : Community}
    (hc : lookupKey cid s.communities = some c)
    (hcid : cid ≠ "") (hw : w ≠ "")
    (hmem : c.isMemberWallet w = false)
    (hcache : cacheFresh s (cacheKey w cid chain) now = none) :
    verifyAccess ora s (some cid) (some w) chain now =
      match computeVerification ora c.requirements cid w chain now with
      | .error e => .error e
      | .ok (has_access, result) =>
        .ok ({ s with
                communities :=
                  setKey cid { c with stats := bumpStats c.stats has_access } s.communities
                verification_cache :=
                  setKey (cacheKey w cid chain) ⟨now, result⟩ s.verification_cache },
             mkSuccess result) := by
  simp [verifyAccess, hc, hcid, hw, hmem, hcache]

/-- The fungible dispatch with a lookup that returns a balance. -/
theorem computeVerification_fungible {ora : Oracle} {req : Requirements}
    (cid w chain : String) (now : Int) {q : ℚ}
    (htt : req.token_type = "fungible")
    (hora : ora.tokenHoldings w req.token_address chain = .ok q) :
    computeVerification ora req cid w chain now =
      .ok (decide (q ≥ req.min_token_amount),
        .fungibleRes cid w (decide (q ≥ req.min_token_amount)) req.token_address
          req.min_token_amount q chain now) := by
  simp [computeVerification, htt, hora, format_timestamp]

/-- The fungible dispatch with a lookup that raises. -/
theorem computeVerification_fungible_raise {ora : Oracle} {req : Requirements}
    (cid w chain : String) (now : Int) {e : String}
    (htt : req.token_type = "fungible")
    (hora : ora.tokenHoldings w req.token_address chain = .error e) :
    computeVerification ora req cid w chain now = .error e := by
  simp [computeVerification, htt, hora]

/-- A successful `_verify_access` leaves the community present in the
store (needed to chain into `_verify_token`'s liveness check). -/
theorem verifyAccess_ok_comm_mem {ora : Oracle} {s : CState} {cid w chain : String}
    {now : Int} {sv : CState} {rv : ToolResult}
    (h : verifyAccess ora s (some cid) (some w) chain now = .ok (sv, rv))
    (hst : rv.status = "success") :
    ∃ c', lookupKey cid sv.communities = some c' := by
  unfold verifyAccess at h
  split at h
  · cases h
    simp [mkError] at hst
  · split at h
    · cases h; simp [mkError] at hst
    next c hcl =>
      dsimp only at h
      split at h
      · cases h; simp [mkError] at hst
      · split at h
        · cases h
          exact ⟨c, hcl⟩
        · split at h
          · cases h
            exact ⟨c, hcl⟩
          · split at h
            · exact absurd h (by simp)
            · cases h
              exact ⟨_, lookupKey_setKey_self _ _ _⟩

/-! ## Concrete fixtures shared by the witnesses -/

/-- A sample fungible-gated community: minimum balance 5, one admin. -/
def exComm : Community :=
  { id := "c1", name := "C", description := "", created_at := 10,
    created_by := "anonymous",
    requirements := { token_type := "fungible", token_address := some "T",
                      min_token_amount := 5, nft_collection_address := none },
    members := { admins := ["A"], moderators := [], members := [] },
    stats := ⟨0, 0, 0, 0⟩ }

/-- A sample tool state holding just `exComm`. -/
def exState : CState :=
  { communities := [("c1", exComm)], access_tokens := [],
    verification_cache := [], wallet_address := none }

/-- A sample holdings lookup, following the spec's example scenario
(section 8): wallet `W` holds 10 units, every other wallet holds 2. -/
def exOracle : Oracle :=
  ⟨fun w _ _ => .ok (if w = "W" then 10 else 2),
   fun _ _ _ => .ok [], fun _ _ _ => .ok true⟩

/-- The result payload of the spec scenario's first verification. -/
def exPayloadW : Payload := .fungibleRes "c1" "W" true (some "T") 5 10 "solana" 100

/-- The state after `verify_access` for wallet `W` against `exState` at
time 100: stats bumped, result cached. -/
def exStateAfter : CState :=
  { exState with
    communities := setKey "c1" { exComm with stats := bumpStats exComm.stats true }
      exState.communities
    verification_cache := setKey (cacheKey "W" "c1" "solana") ⟨100, exPayloadW⟩
      exState.verification_cache }

/-! ## Claim theorems -/

/-- Claim C3: for an existing community whose requirements have token
type "fungible" and a non-member wallet on a cache miss, `_verify_access`
grants access exactly when the balance reported by the holdings lookup
is at least `min_token_amount`, and reports that balance as
`actual_amount`. -/
theorem C3_fungible_access_decision (ora : Oracle) (s : CState)
    (cid w chain : String) (now : Int) (c : Community) (q : ℚ)
    (hc : lookupKey cid s.communities = some c)
    (hcid : cid ≠ "") (hw : w ≠ "")
    (htt : c.requirements.token_type = "fungible")
    (hmem : c.isMemberWallet w = false)
    (hcache : cacheFresh s (cacheKey w cid chain) now = none)
    (hora : ora.tokenHoldings w c.requirements.token_address chain = .ok q) :
    ∃ s', verifyAccess ora s (some cid) (some w) chain now =
        .ok (s', mkSuccess (.fungibleRes cid w
          (decide (q ≥ c.requirements.min_token_amount))
          c.requirements.token_address c.requirements.min_token_amount q chain now))
      ∧ ((decide (q ≥ c.requirements.min_token_amount) = true) ↔
          q ≥ c.requirements.min_token_amount) := by
  have h := verifyAccess_miss ora s hc hcid hw hmem hcache
  rw [computeVerification_fungible cid w chain now htt hora] at h
  exact ⟨_, h, by simp⟩

/-- Witness for C3 at the spec's example scenario: wallet `W` with
holdings 10 against a minimum of 5 is granted access with
`actual_amount = 10`. -/
theorem C3_fungible_access_decision_witness :
    (verifyAccess exOracle exState (some "c1") (some "W") "solana" 100).map Prod.snd
      = .ok (mkSuccess exPayloadW) ∧ (10 : ℚ) ≥ 5 := by
  obtain ⟨s', h1, _h2⟩ := C3_fungible_access_decision exOracle exState "c1" "W" "solana"
    100 exComm 10 (by rfl) (by decide) (by decide) (by rfl) (by rfl) (by rfl) (by rfl)
  refine ⟨?_, by norm_num⟩
  rw [h1]
  rfl

/-- Claim C2: a second `_verify_access` with unchanged inputs, issued
while the entry cached by a first (cache-missing) call is younger than
the TTL, returns the identical result and leaves the state — in
particular the `access_requests`, `access_granted` and `access_denied`
counters — untouched. -/
theorem C2_ttl_cache_idempotent (ora : Oracle) (s : CState) (cid w chain : String)
    (t1 t2 : Int) (c : Community) (s1 : CState) (r1 : ToolResult)
    (hc : lookupKey cid s.communities = some c)
    (hcid : cid ≠ "") (hw : w ≠ "")
    (hmem : c.isMemberWallet w = false)
    (hcache : cacheFresh s (cacheKey w cid chain) t1 = none)
    (h1 : verifyAccess ora s (some cid) (some w) chain t1 = .ok (s1, r1))
    (hdt : t2 - t1 < cache_expiration) :
    verifyAccess ora s1 (some cid) (some w) chain t2 = .ok (s1, r1) := by
  rw [verifyAccess_miss ora s hc hcid hw hmem hcache] at h1
  rcases hcomp : computeVerification ora c.requirements cid w chain t1 with e | ⟨has, result⟩
  · rw [hcomp] at h1
    exact absurd h1 (by simp)
  · rw [hcomp] at h1
    simp only [Except.ok.injEq, Prod.mk.injEq] at h1
    obtain ⟨hs1, hr1⟩ := h1
    have hc' : lookupKey cid s1.communities =
        some { c with stats := bumpStats c.stats has } := by
      rw [← hs1]
      exact lookupKey_setKey_self _ _ _
    have hmem' : Community.isMemberWallet { c with stats := bumpStats c.stats has } w = false :=
      hmem
    have hcache' : cacheFresh s1 (cacheKey w cid chain) t2 = some result := by
      rw [← hs1]
      simp [cacheFresh, lookupKey_setKey_self, hdt]
    rw [verifyAccess_hit ora s1 hc' hcid hw hmem' hcache', hr1]

/-- Witness for C2: the concrete second call at time 200 against the
state produced by the first call at time 100 replays the cached result
and returns the state unchanged. -/
theorem C2_ttl_cache_idempotent_witness :
    verifyAccess exOracle exStateAfter (some "c1") (some "W") "solana" 200 =
      .ok (exStateAfter, mkSuccess exPayloadW) :=
  C2_ttl_cache_idempotent exOracle exState "c1" "W" "solana" 100 200 exComm
    exStateAfter (mkSuccess exPayloadW) (by rfl) (by decide) (by decide) (by rfl)
    (by rfl) (by rfl) (by decide)

/-- A sample issued token: `tid1`, member level, expires at time 1000. -/
def exToken : TokenData := ⟨"tid1", "c1", "W", "member", 100, 1000⟩

/-- `exState` with `exToken` in the token store. -/
def exTokState : CState := { exState with access_tokens := [("tid1", exToken)] }

/-- A forged credential reusing `exToken`'s id with a far-future expiry
and escalated fields. -/
def exForged1 : TokenPayload :=
  ⟨some "tid1", some "c1", some "Mallory", some "admin", some 100, some 5000⟩

/-- A forged credential reusing `exToken`'s id with an already-past
expiry. -/
def exForged2 : TokenPayload :=
  ⟨some "tid1", some "c1", some "Mallory", some "admin", some 100, some 900⟩

/-- Claim C9: `_verify_token` takes the expiry decision and all returned
fields (wallet, level, community, expiry) from the supplied decoded
payload; the server-held record backing `token_id` is only tested for
existence. Hence two credentials with the same `token_id` but different
`expires_at` are judged each by its own `expires_at`, and one of them is
accepted although the stored record itself is already past expiry
(hypothesis `hdexp`, unused by the proof: that is the point). -/
theorem C9_verify_token_trusts_payload (s : CState) (tid cid : String)
    (d : TokenData) (c : Community) (p1 p2 : TokenPayload) (now e1 : Int)
    (hstore : lookupKey tid s.access_tokens = some d)
    (hcomm : lookupKey cid s.communities = some c)
    (h1id : p1.token_id = some tid) (h2id : p2.token_id = some tid)
    (h1cid : p1.community_id = some cid)
    (hdexp : d.expires_at < now)
    (h1e : p1.expires_at = some e1) (h1ok : ¬ now > e1)
    (h2e : now > p2.expires_at.getD 0) :
    verifyToken s (some (.ok p1)) now =
        mkSuccess (.verifyTokenRes tid true cid p1.wallet_address p1.access_level
          e1 (e1 - now))
      ∧ verifyToken s (some (.ok p2)) now = mkError "Access token has expired" := by
  constructor
  · simp [verifyToken, h1id, h1cid, hstore, hcomm, h1e, h1ok, format_timestamp]
  · simp [verifyToken, h2id, hstore, h2e]

/-- Witness for C9: at time 2000 the stored record `exToken` expired at
1000, yet the forged credential claiming expiry 5000 is accepted (with
the forged wallet and level echoed back), while the forged credential
claiming expiry 900 is rejected as expired. -/
theorem C9_verify_token_trusts_payload_witness :
    verifyToken exTokState (some (.ok exForged1)) 2000 =
        mkSuccess (.verifyTokenRes "tid1" true "c1" (some "Mallory") (some "admin")
          5000 3000)
      ∧ verifyToken exTokState (some (.ok exForged2)) 2000 =
        mkError "Access token has expired" :=
  C9_verify_token_trusts_payload exTokState "tid1" "c1" exToken exComm exForged1
    exForged2 2000 5000 (by rfl) (by rfl) (by rfl) (by rfl) (by rfl) (by decide)
    (by rfl) (by decide) (by decide)

/-- Characterization of a granting `_generate_access_token` call: when
the nested verification succeeds with access, the token record is built
from the call's own arguments and stored, and the encoded credential is
returned. -/
theorem generateAccessToken_grant_eq (ora : Oracle) (s : CState)
    {cid w : String} (lvl : String) (exp t : Int) {sv : CState} {rv : ToolResult}
    {c : Community}
    (hc : lookupKey cid s.communities = some c)
    (hcid : cid ≠ "") (hw : w ≠ "")
    (hv : verifyAccess ora s (some cid) (some w) "solana" t = .ok (sv, rv))
    (hst : rv.status = "success") (hacc : rv.resultHasAccess = true) :
    generateAccessToken ora s (some cid) (some w) lvl exp t =
      .ok ({ sv with access_tokens := setKey (tokenIdHash w cid t) ⟨tokenIdHash w cid t, cid, w, lvl, t, t + exp⟩ sv.access_tokens },
        mkSuccess (.genTokenRes
          (TokenData.toPayload ⟨tokenIdHash w cid t, cid, w, lvl, t, t + exp⟩)
          (tokenIdHash w cid t) cid w lvl t (t + exp)
          "Access token generated successfully")) := by
  simp [generateAccessToken, hc, hcid, hw, hv, hst, hacc, format_timestamp]

/-- Claim C10: `_generate_access_token` never validates or authorizes
`access_level`: for an arbitrary string `lvl`, whenever the community
exists, the wallet is non-empty and verification grants access, the call
succeeds and both the stored record and the returned credential carry
exactly `lvl`. -/
theorem C10_access_level_unvalidated (ora : Oracle) (s : CState)
    (cid w lvl : String) (exp t : Int) (sv : CState) (rv : ToolResult)
    (c : Community)
    (hc : lookupKey cid s.communities = some c)
    (hcid : cid ≠ "") (hw : w ≠ "")
    (hv : verifyAccess ora s (some cid) (some w) "solana" t = .ok (sv, rv))
    (hst : rv.status = "success") (hacc : rv.resultHasAccess = true) :
    ∃ s1, generateAccessToken ora s (some cid) (some w) lvl exp t =
        .ok (s1, mkSuccess (.genTokenRes
          ⟨some (tokenIdHash w cid t), some cid, some w, some lvl, some t, some (t + exp)⟩
          (tokenIdHash w cid t) cid w lvl t (t + exp)
          "Access token generated successfully"))
      ∧ lookupKey (tokenIdHash w cid t) s1.access_tokens =
          some ⟨tokenIdHash w cid t, cid, w, lvl, t, t + exp⟩ := by
  refine ⟨_, generateAccessToken_grant_eq ora s lvl exp t hc hcid hw hv hst hacc, ?_⟩
  exact lookupKey_setKey_self _ _ _

/-- Extracts the stored token record for `tid` out of an operation
result (for stating witnesses about the post-state). -/
def storedTokenOf (g : Except String (CState × ToolResult)) (tid : String) :
    Option TokenData :=
  match g with
  | .ok (s1, _) => lookupKey tid s1.access_tokens
  | .error _ => none

/-- Witness for C10: wallet `W` (a plain token holder, not an admin)
obtains an "admin"-level token; the stored record carries "admin". -/
theorem C10_access_level_unvalidated_witness :
    (generateAccessToken exOracle exState (some "c1") (some "W") "admin" 86400 100).map
        Prod.snd =
      .ok (mkSuccess (.genTokenRes
        ⟨some "W_c1_100", some "c1", some "W", some "admin", some 100, some 86500⟩
        "W_c1_100" "c1" "W" "admin" 100 86500 "Access token generated successfully"))
    ∧ storedTokenOf
        (generateAccessToken exOracle exState (some "c1") (some "W") "admin" 86400 100)
        "W_c1_100" = some ⟨"W_c1_100", "c1", "W", "admin", 100, 86500⟩ := by
  obtain ⟨s1, h1, h2⟩ := C10_access_level_unvalidated exOracle exState "c1" "W"
    "admin" 86400 100 exStateAfter (mkSuccess exPayloadW) exComm (by rfl) (by decide)
    (by decide) (by rfl) (by rfl) (by rfl)
  constructor
  · rw [h1]
    rfl
  · rw [h1]
    exact h2

/-- Runs `_verify_token` against the state left behind by a
token-generation result (for stating round-trip witnesses). -/
def verifyAfterGen (g : Except String (CState × ToolResult))
    (p : TokenPayload) (t' : Int) : Option ToolResult :=
  match g with
  | .ok (s1, _) => some (verifyToken s1 (some (.ok p)) t')
  | .error _ => none

/-- Claim C4: when access verification grants access,
`_generate_access_token` succeeds, and `_verify_token` on the returned
credential succeeds with `is_valid = true` and
`time_remaining_seconds = expiration - (t' - t)` (equal to the requested
expiration up to the elapsed execution time `t' - t`) for as long as no
more than `expiration` seconds have passed; once more than `expiration`
seconds have elapsed it fails with the expiry error. -/
theorem C4_token_roundtrip (ora : Oracle) (s : CState) (cid w lvl : String)
    (exp t : Int) (sv : CState) (rv : ToolResult) (c : Community)
    (hc : lookupKey cid s.communities = some c)
    (hcid : cid ≠ "") (hw : w ≠ "")
    (hv : verifyAccess ora s (some cid) (some w) "solana" t = .ok (sv, rv))
    (hst : rv.status = "success") (hacc : rv.resultHasAccess = true) :
    ∃ s1, generateAccessToken ora s (some cid) (some w) lvl exp t =
        .ok (s1, mkSuccess (.genTokenRes
          (TokenData.toPayload ⟨tokenIdHash w cid t, cid, w, lvl, t, t + exp⟩)
          (tokenIdHash w cid t) cid w lvl t (t + exp)
          "Access token generated successfully"))
      ∧ (∀ t' : Int, ¬ t' > t + exp →
          verifyToken s1 (some (.ok (TokenData.toPayload
              ⟨tokenIdHash w cid t, cid, w, lvl, t, t + exp⟩))) t' =
            mkSuccess (.verifyTokenRes (tokenIdHash w cid t) true cid (some w)
              (some lvl) (t + exp) (t + exp - t')))
      ∧ (∀ t' : Int, t' > t + exp →
          verifyToken s1 (some (.ok (TokenData.toPayload
              ⟨tokenIdHash w cid t, cid, w, lvl, t, t + exp⟩))) t' =
            mkError "Access token has expired") := by
  obtain ⟨c', hcl'⟩ := verifyAccess_ok_comm_mem hv hst
  refine ⟨_, generateAccessToken_grant_eq ora s lvl exp t hc hcid hw hv hst hacc,
    ?_, ?_⟩
  · intro t' ht'
    simp [verifyToken, TokenData.toPayload, lookupKey_setKey_self, ht', hcl',
      format_timestamp]
  · intro t' ht'
    simp [verifyToken, TokenData.toPayload, lookupKey_setKey_self, ht']

/-- Witness for C4: wallet `W` generates a member token at time 100 with
expiration 86400; verifying at time 100 reports validity with 86400
seconds remaining, verifying at time 86501 reports the expiry error. -/
theorem C4_token_roundtrip_witness :
    verifyAfterGen
        (generateAccessToken exOracle exState (some "c1") (some "W") "member" 86400 100)
        (TokenData.toPayload ⟨"W_c1_100", "c1", "W", "member", 100, 86500⟩) 100 =
      some (mkSuccess (.verifyTokenRes "W_c1_100" true "c1" (some "W") (some "member")
        86500 86400))
    ∧ verifyAfterGen
        (generateAccessToken exOracle exState (some "c1") (some "W") "member" 86400 100)
        (TokenData.toPayload ⟨"W_c1_100", "c1", "W", "member", 100, 86500⟩) 86501 =
      some (mkError "Access token has expired") := by
  obtain ⟨s1, h1, h2, h3⟩ := C4_token_roundtrip exOracle exState "c1" "W" "member"
    86400 100 exStateAfter (mkSuccess exPayloadW) exComm (by rfl) (by decide)
    (by decide) (by rfl) (by rfl) (by rfl)
  constructor
  · rw [h1]
    have := h2 100 (by decide)
    rw [show (100 : Int) + 86400 = 86500 by decide] at this
    rw [show (86500 : Int) - 100 = 86400 by decide] at this
    exact congrArg some this
  · rw [h1]
    have := h3 86501 (by decide)
    rw [show (100 : Int) + 86400 = 86500 by decide] at this
    exact congrArg some this

/-- Field-wise characterization of the requirement-update chain: the
three string-valued fields follow truthiness, `min_token_amount` follows
`is not None`. -/
theorem applyReqUpdate_fields (r0 : Requirements) (ta : Option String)
    (mta : Option ℚ) (tt nca : Option String) :
    (applyReqUpdate r0 ta mta tt nca).token_type =
        (if truthy tt then tt.getD "" else r0.token_type)
      ∧ (applyReqUpdate r0 ta mta tt nca).token_address =
        (if truthy ta then ta else r0.token_address)
      ∧ (applyReqUpdate r0 ta mta tt nca).min_token_amount =
        (match mta with | some m => m | none => r0.min_token_amount)
      ∧ (applyReqUpdate r0 ta mta tt nca).nft_collection_address =
        (if truthy nca then nca else r0.nft_collection_address) := by
  cases htt : truthy tt <;> cases hta : truthy ta <;> cases hnca : truthy nca <;>
    rcases mta with _ | m <;> simp [applyReqUpdate, htt, hta, hnca]

/-- Projects the stored `token_address` requirement of a community out
of a state (for stating counterexamples). -/
def reqTokenAddressAt (s : CState) (cid : String) : Option (Option String) :=
  match lookupKey cid s.communities with
  | some c => some c.requirements.token_address
  | none => none

/-- Counterexample to claim C6 as stated: against a community whose
requirement `token_address` is `"T"`, `_configure_requirements` called
with the non-null argument `token_address = ""` does NOT overwrite the
field (the code tests Python truthiness, and `""` is falsy), so the
stored value stays `"T"` instead of becoming `""` as the claim
predicts for every non-null provided argument. -/
theorem C6_counterexample_empty_string :
    reqTokenAddressAt
        (configureRequirements exState (some "c1") (some "") none none none 50).1 "c1" =
      some (some "T")
    ∧ (some (some "T") : Option (Option String)) ≠ some (some "") := by
  exact ⟨by rfl, by decide⟩

/-- Claim C6 (amended): for an existing community and an authorized
caller, exactly the truthy provided arguments overwrite — `token_type`,
`token_address` and `nft_collection_address` overwrite when provided
non-null and non-empty, `min_token_amount` overwrites whenever non-null
— every other requirement field keeps its previous value, all other
fields of the community (name, description, members, stats) are
unchanged, and every other community in the store is untouched. -/
theorem C6_configure_partial_update (s : CState) (cid : String) (c : Community)
    (ta : Option String) (mta : Option ℚ) (tt nca : Option String) (now : Int)
    (hc : lookupKey cid s.communities = some c)
    (hcid : cid ≠ "")
    (hauth : ¬(truthy s.wallet_address = true ∧
      s.wallet_address.getD "" ∉ c.members.admins)) :
    configureRequirements s (some cid) ta mta tt nca now =
        ({ s with communities := setKey cid { c with requirements := applyReqUpdate c.requirements ta mta tt nca } s.communities },
         mkSuccess (.configureRes cid (applyReqUpdate c.requirements ta mta tt nca)
           now "Community requirements updated successfully"))
      ∧ (applyReqUpdate c.requirements ta mta tt nca).token_type =
          (if truthy tt then tt.getD "" else c.requirements.token_type)
      ∧ (applyReqUpdate c.requirements ta mta tt nca).token_address =
          (if truthy ta then ta else c.requirements.token_address)
      ∧ (applyReqUpdate c.requirements ta mta tt nca).min_token_amount =
          (match mta with | some m => m | none => c.requirements.min_token_amount)
      ∧ (applyReqUpdate c.requirements ta mta tt nca).nft_collection_address =
          (if truthy nca then nca else c.requirements.nft_collection_address)
      ∧ ({ c with requirements := applyReqUpdate c.requirements ta mta tt nca } : Community).name = c.name
      ∧ ({ c with requirements := applyReqUpdate c.requirements ta mta tt nca } : Community).description = c.description
      ∧ ({ c with requirements := applyReqUpdate c.requirements ta mta tt nca } : Community).members = c.members
      ∧ ({ c with requirements := applyReqUpdate c.requirements ta mta tt nca } : Community).stats = c.stats
      ∧ ∀ cid' : String, cid' ≠ cid →
          lookupKey cid' (setKey cid { c with requirements := applyReqUpdate c.requirements ta mta tt nca } s.communities) =
            lookupKey cid' s.communities := by
  obtain ⟨h1, h2, h3, h4⟩ := applyReqUpdate_fields c.requirements ta mta tt nca
  refine ⟨?_, h1, h2, h3, h4, rfl, rfl, rfl, rfl, ?_⟩
  · simp [configureRequirements, hc, hcid, hauth, format_timestamp]
  · intro cid' hne
    exact lookupKey_setKey_ne _ _ hne

/-- Witness for the amended C6: configuring `exComm` (token type
"fungible", address "T", minimum 5, no collection) with a new minimum 7
and an empty-string `token_type` changes only the minimum. -/
theorem C6_configure_partial_update_witness :
    (configureRequirements exState (some "c1") none (some 7) (some "") none 50).1.communities =
        setKey "c1" { exComm with requirements := { token_type := "fungible", token_address := some "T", min_token_amount := 7, nft_collection_address := none } } exState.communities
      ∧ (applyReqUpdate exComm.requirements none (some 7) (some "") none).token_type = "fungible" := by
  obtain ⟨h1, h2, h3, h4, h5, _⟩ := C6_configure_partial_update exState "c1" exComm
    none (some 7) (some "") none 50 (by rfl) (by decide) (by simp [exState])
  constructor
  · rw [h1]
    rfl
  · rw [h2]
    rfl

/-- The role-exclusivity invariant in its inductive form: across the
three buckets together, every wallet occurs at most once. -/
def memberOnce (m : Members) : Prop :=
  (m.admins ++ m.moderators ++ m.members).Nodup

/-- The invariant as the claim words it: a wallet is in at most one of
the three buckets. -/
def atMostOneRole (m : Members) : Prop :=
  ∀ x : String, (x ∈ m.admins → x ∉ m.moderators ∧ x ∉ m.members) ∧
    (x ∈ m.moderators → x ∉ m.members)

/-- The store-wide invariant: every community's buckets satisfy
`memberOnce`. -/
def storeInv (s : CState) : Prop := ∀ p ∈ s.communities, memberOnce p.2.members

theorem lookupKey_mem {α : Type} {k : String} {v : α} {l : List (String × α)}
    (h : lookupKey k l = some v) : (k, v) ∈ l := by
  induction l with
  | nil => simp [lookupKey] at h
  | cons q rest ih =>
    obtain ⟨ka, va⟩ := q
    by_cases hk : ka = k
    · subst hk
      simp [lookupKey] at h
      simp [h]
    · simp [lookupKey, hk] at h
      exact List.mem_cons_of_mem _ (ih h)

theorem memberOnce_count {m : Members} (hm : memberOnce m) (x : String) :
    m.admins.count x + m.moderators.count x + m.members.count x ≤ 1 := by
  rw [memberOnce, List.nodup_iff_count_le_one] at hm
  have := hm x
  simp only [List.count_append] at this
  omega

theorem memberOnce_atMostOneRole {m : Members} (hm : memberOnce m) :
    atMostOneRole m := by
  intro x
  have h := memberOnce_count hm x
  constructor
  · intro hxa
    have h1 : 0 < m.admins.count x := List.count_pos_iff.mpr hxa
    constructor
    · intro hxm
      have h2 : 0 < m.moderators.count x := List.count_pos_iff.mpr hxm
      omega
    · intro hxm
      have h2 : 0 < m.members.count x := List.count_pos_iff.mpr hxm
      omega
  · intro hxa hxm
    have h1 : 0 < m.moderators.count x := List.count_pos_iff.mpr hxa
    have h2 : 0 < m.members.count x := List.count_pos_iff.mpr hxm
    omega

theorem count_notMem_zero {l : List String} {w : String} (h : w ∉ l) :
    l.count w = 0 := List.count_eq_zero.mpr h

theorem memberOnce_move_admins {a mo me : List String} {w : String}
    (h : (a ++ mo ++ me).Nodup) (hwa : w ∉ a) :
    ((a ++ [w]) ++ mo.erase w ++ me.erase w).Nodup := by
  rw [List.nodup_iff_count_le_one] at h ⊢
  intro x
  have hx := h x
  have hw := h w
  simp only [List.count_append] at hx hw ⊢
  have h0 : a.count w = 0 := List.count_eq_zero.mpr hwa
  by_cases hxw : x = w
  · subst hxw
    rw [List.count_erase_self, List.count_erase_self]
    simp [List.count_cons, h0]
    omega
  · rw [List.count_erase_of_ne hxw, List.count_erase_of_ne hxw]
    simp [List.count_cons, hxw]
    omega

theorem memberOnce_move_mods {a mo me : List String} {w : String}
    (h : (a ++ mo ++ me).Nodup) (hwmo : w ∉ mo) :
    (a.erase w ++ (mo ++ [w]) ++ me.erase w).Nodup := by
  rw [List.nodup_iff_count_le_one] at h ⊢
  intro x
  have hx := h x
  have hw := h w
  simp only [List.count_append] at hx hw ⊢
  have h0 : mo.count w = 0 := List.count_eq_zero.mpr hwmo
  by_cases hxw : x = w
  · subst hxw
    rw [List.count_erase_self, List.count_erase_self]
    simp [List.count_cons, h0]
    omega
  · rw [List.count_erase_of_ne hxw, List.count_erase_of_ne hxw]
    simp [List.count_cons, hxw]
    omega

theorem memberOnce_move_members {a mo me : List String} {w : String}
    (h : (a ++ mo ++ me).Nodup) (hwme : w ∉ me) :
    (a.erase w ++ mo.erase w ++ (me ++ [w])).Nodup := by
  rw [List.nodup_iff_count_le_one] at h ⊢
  intro x
  have hx := h x
  have hw := h w
  simp only [List.count_append] at hx hw ⊢
  have h0 : me.count w = 0 := List.count_eq_zero.mpr hwme
  by_cases hxw : x = w
  · subst hxw
    rw [List.count_erase_self, List.count_erase_self]
    simp [List.count_cons, h0]
    omega
  · rw [List.count_erase_of_ne hxw, List.count_erase_of_ne hxw]
    simp [List.count_cons, hxw]
    omega

/-- Core preservation fact for `_add_member`'s bucket manipulation: if
every wallet occurs at most once across the buckets, this is still so
after the move-or-early-return loop followed by the append — whatever
the requested role key. -/
theorem addMemberScan_memberOnce (m : Members) (rk w : String) (hm : memberOnce m) :
    (match addMemberScan m rk w with
     | Sum.inl m' => memberOnce m'
     | Sum.inr m' => memberOnce (appendRole m' rk w)) := by
  have hcnt := memberOnce_count hm
  by_cases hwa : w ∈ m.admins
  · have hwmo : w ∉ m.moderators := by
      intro hx
      have := List.count_pos_iff.mpr hwa
      have := List.count_pos_iff.mpr hx
      have := hcnt w
      omega
    have hwme : w ∉ m.members := by
      intro hx
      have := List.count_pos_iff.mpr hwa
      have := List.count_pos_iff.mpr hx
      have := hcnt w
      omega
    by_cases hrka : rk = "admins"
    · have hscan : addMemberScan m rk w = Sum.inl m := by
        simp [addMemberScan, processRole, hwa, hrka]
      rw [hscan]
      exact hm
    · have hscan : addMemberScan m rk w =
          Sum.inr ⟨m.admins.erase w, m.moderators, m.members⟩ := by
        simp [addMemberScan, processRole, hwa, Ne.symm hrka, hwmo, hwme]
      rw [hscan]
      by_cases hrkm : rk = "moderators"
      · have happ : appendRole ⟨m.admins.erase w, m.moderators, m.members⟩ rk w =
            ⟨m.admins.erase w, m.moderators ++ [w], m.members⟩ := by
          simp [appendRole, hrkm]
        dsimp only
        rw [happ, memberOnce]
        have hmv := memberOnce_move_mods hm hwmo
        rw [List.erase_of_not_mem hwme] at hmv
        exact hmv
      · have happ : appendRole ⟨m.admins.erase w, m.moderators, m.members⟩ rk w =
            ⟨m.admins.erase w, m.moderators, m.members ++ [w]⟩ := by
          simp [appendRole, hrka, hrkm]
        dsimp only
        rw [happ, memberOnce]
        have hmv := memberOnce_move_members hm hwme
        rw [List.erase_of_not_mem hwmo] at hmv
        exact hmv
  · by_cases hwmo : w ∈ m.moderators
    · have hwme : w ∉ m.members := by
        intro hx
        have := List.count_pos_iff.mpr hwmo
        have := List.count_pos_iff.mpr hx
        have := hcnt w
        omega
      by_cases hrkm : rk = "moderators"
      · have hscan : addMemberScan m rk w = Sum.inl ⟨m.admins, m.moderators, m.members⟩ := by
          simp [addMemberScan, processRole, hwa, hwmo, hrkm]
        rw [hscan]
        exact hm
      · have hscan : addMemberScan m rk w =
            Sum.inr ⟨m.admins, m.moderators.erase w, m.members⟩ := by
          simp [addMemberScan, processRole, hwa, hwmo, Ne.symm hrkm, hwme]
        rw [hscan]
        by_cases hrka : rk = "admins"
        · have happ : appendRole ⟨m.admins, m.moderators.erase w, m.members⟩ rk w =
              ⟨m.admins ++ [w], m.moderators.erase w, m.members⟩ := by
            simp [appendRole, hrka]
          dsimp only
          rw [happ, memberOnce]
          have hmv := memberOnce_move_admins hm hwa
          rw [List.erase_of_not_mem hwme] at hmv
          exact hmv
        · have happ : appendRole ⟨m.admins, m.moderators.erase w, m.members⟩ rk w =
              ⟨m.admins, m.moderators.erase w, m.members ++ [w]⟩ := by
            simp [appendRole, hrka, hrkm]
          dsimp only
          rw [happ, memberOnce]
          have hmv := memberOnce_move_members hm hwme
          rw [List.erase_of_not_mem hwa] at hmv
          exact hmv
    · by_cases hwme : w ∈ m.members
      · by_cases hrkme : rk = "members"
        · have hscan : addMemberScan m rk w =
              Sum.inl ⟨m.admins, m.moderators, m.members⟩ := by
            simp [addMemberScan, processRole, hwa, hwmo, hwme, hrkme]
          rw [hscan]
          exact hm
        · have hscan : addMemberScan m rk w =
              Sum.inr ⟨m.admins, m.moderators, m.members.erase w⟩ := by
            simp [addMemberScan, processRole, hwa, hwmo, hwme, Ne.symm hrkme]
          rw [hscan]
          by_cases hrka : rk = "admins"
          · have happ : appendRole ⟨m.admins, m.moderators, m.members.erase w⟩ rk w =
                ⟨m.admins ++ [w], m.moderators, m.members.erase w⟩ := by
              simp [appendRole, hrka]
            dsimp only
            rw [happ, memberOnce]
            have hmv := memberOnce_move_admins hm hwa
            rw [List.erase_of_not_mem hwmo] at hmv
            exact hmv
          · by_cases hrkm : rk = "moderators"
            · have happ : appendRole ⟨m.admins, m.moderators, m.members.erase w⟩ rk w =
                  ⟨m.admins, m.moderators ++ [w], m.members.erase w⟩ := by
                simp [appendRole, hrkm]
              dsimp only
              rw [happ, memberOnce]
              have hmv := memberOnce_move_mods hm hwmo
              rw [List.erase_of_not_mem hwa] at hmv
              exact hmv
            · have happ : appendRole ⟨m.admins, m.moderators, m.members.erase w⟩ rk w =
                  ⟨m.admins, m.moderators, m.members.erase w ++ [w]⟩ := by
                simp [appendRole, hrka, hrkm]
              dsimp only
              rw [happ, memberOnce]
              have hndme : m.members.Nodup := by
                rw [memberOnce] at hm
                exact hm.of_append_right
              have hsub : List.Sublist (m.admins ++ m.moderators ++ m.members.erase w)
                  (m.admins ++ m.moderators ++ m.members) :=
                List.Sublist.append_left (List.erase_sublist w m.members) _
              have h' : (m.admins ++ m.moderators ++ m.members.erase w).Nodup := by
                rw [memberOnce] at hm
                exact List.Nodup.sublist hsub hm
              have hmv := memberOnce_move_members h' (hndme.not_mem_erase)
              rw [List.erase_of_not_mem hwa, List.erase_of_not_mem hwmo] at hmv
              exact hmv
      · have hscan : addMemberScan m rk w =
            Sum.inr ⟨m.admins, m.moderators, m.members⟩ := by
          simp [addMemberScan, processRole, hwa, hwmo, hwme]
        rw [hscan]
        by_cases hrka : rk = "admins"
        · have happ : appendRole ⟨m.admins, m.moderators, m.members⟩ rk w =
              ⟨m.admins ++ [w], m.moderators, m.members⟩ := by
            simp [appendRole, hrka]
          dsimp only
          rw [happ, memberOnce]
          have hmv := memberOnce_move_admins hm hwa
          rw [List.erase_of_not_mem hwmo, List.erase_of_not_mem hwme] at hmv
          exact hmv
        · by_cases hrkm : rk = "moderators"
          · have happ : appendRole ⟨m.admins, m.moderators, m.members⟩ rk w =
                ⟨m.admins, m.moderators ++ [w], m.members⟩ := by
              simp [appendRole, hrkm]
            dsimp only
            rw [happ, memberOnce]
            have hmv := memberOnce_move_mods hm hwmo
            rw [List.erase_of_not_mem hwa, List.erase_of_not_mem hwme] at hmv
            exact hmv
          · have happ : appendRole ⟨m.admins, m.moderators, m.members⟩ rk w =
                ⟨m.admins, m.moderators, m.members ++ [w]⟩ := by
              simp [appendRole, hrka, hrkm]
            dsimp only
            rw [happ, memberOnce]
            have hmv := memberOnce_move_members hm hwme
            rw [List.erase_of_not_mem hwa, List.erase_of_not_mem hwmo] at hmv
            exact hmv

/-- A freshly created community store satisfies the invariant. -/
theorem createCommunity_storeInv (s : CState) (nm d : String) (ta : Option String)
    (mta : ℚ) (tt : String) (nca : Option String) (now : Int)
    (h : storeInv s) : storeInv (createCommunity s nm d ta mta tt nca now).1 := by
  unfold createCommunity
  split
  · exact h
  · split
    · exact h
    · intro p hp
      rcases mem_setKey hp with hpe | hpm
      · rw [hpe]
        by_cases hwt : truthy s.wallet_address
        · simp [memberOnce, hwt]
        · simp [memberOnce, hwt]
      · exact h p hpm

/-- `_add_member` preserves the invariant, on every path. -/
theorem addMember_storeInv (s : CState) (cidO wO : Option String) (lvl : String)
    (now : Int) (h : storeInv s) : storeInv (addMember s cidO wO lvl now).1 := by
  unfold addMember
  split
  · exact h
  · split
    · exact h
    next c hcl =>
      split
      · exact h
      · split
        · exact h
        · split
          · exact h
          · have hsc := addMemberScan_memberOnce c.members (lvl ++ "s") (wO.getD "")
              (h _ (lookupKey_mem hcl))
            dsimp only
            split
            next m' hscan =>
              rw [hscan] at hsc
              intro p hp
              rcases mem_setKey hp with hpe | hpm
              · rw [hpe]
                exact hsc
              · exact h p hpm
            next m' hscan =>
              rw [hscan] at hsc
              simp only [addMemberTail]
              intro p hp
              rcases mem_setKey hp with hpe | hpm
              · rw [hpe]
                exact hsc
              · exact h p hpm

/-- Claim C1: role exclusivity. A freshly created community satisfies
the at-most-one-occurrence invariant `memberOnce` (hence every wallet is
in at most one of admins/moderators/members), `_add_member` preserves it
on every path (moving the wallet out of its old bucket before appending,
and returning early when it already holds the requested role), and
`memberOnce` entails the bucket-exclusivity the claim words. -/
theorem C1_role_exclusivity :
    (∀ (s : CState) (nm d : String) (ta : Option String) (mta : ℚ) (tt : String)
        (nca : Option String) (now : Int),
      storeInv s → storeInv (createCommunity s nm d ta mta tt nca now).1)
  ∧ (∀ (s : CState) (cidO wO : Option String) (lvl : String) (now : Int),
      storeInv s → storeInv (addMember s cidO wO lvl now).1)
  ∧ (∀ m : Members, memberOnce m → atMostOneRole m) :=
  ⟨fun s nm d ta mta tt nca now h => createCommunity_storeInv s nm d ta mta tt nca now h,
   fun s cidO wO lvl now h => addMember_storeInv s cidO wO lvl now h,
   fun _ hm => memberOnce_atMostOneRole hm⟩

/-- Witness for C1: adding wallet `B` as a member of the sample
community (whose buckets satisfy the invariant) leaves the whole store
satisfying it. -/
theorem C1_role_exclusivity_witness :
    storeInv exState ∧ storeInv (addMember exState (some "c1") (some "B") "member" 5).1 :=
  ⟨by simp only [storeInv, memberOnce]; decide,
   C1_role_exclusivity.2.1 exState (some "c1") (some "B") "member" 5
     (by simp only [storeInv, memberOnce]; decide)⟩

/-- Under the invariant, the early return of `_add_member`'s loop leaves
the buckets untouched, and happens exactly because the wallet already
holds the requested role. -/
theorem addMemberScan_inl_already {m : Members} {rk w : String} {m' : Members}
    (hm : memberOnce m) (h : addMemberScan m rk w = Sum.inl m') :
    m' = m ∧ ((rk = "admins" ∧ w ∈ m.admins) ∨ (rk = "moderators" ∧ w ∈ m.moderators)
      ∨ (rk = "members" ∧ w ∈ m.members)) := by
  have hcnt := memberOnce_count hm
  by_cases hwa : w ∈ m.admins
  · have hwmo : w ∉ m.moderators := by
      intro hx
      have := List.count_pos_iff.mpr hwa
      have := List.count_pos_iff.mpr hx
      have := hcnt w
      omega
    have hwme : w ∉ m.members := by
      intro hx
      have := List.count_pos_iff.mpr hwa
      have := List.count_pos_iff.mpr hx
      have := hcnt w
      omega
    by_cases hrka : rk = "admins"
    · have hscan : addMemberScan m rk w = Sum.inl m := by
        simp [addMemberScan, processRole, hwa, hrka]
      rw [hscan] at h
      injection h with h1
      exact ⟨h1.symm, Or.inl ⟨hrka, hwa⟩⟩
    · have hscan : addMemberScan m rk w =
          Sum.inr ⟨m.admins.erase w, m.moderators, m.members⟩ := by
        simp [addMemberScan, processRole, hwa, Ne.symm hrka, hwmo, hwme]
      rw [hscan] at h
      cases h
  · by_cases hwmo : w ∈ m.moderators
    · have hwme : w ∉ m.members := by
        intro hx
        have := List.count_pos_iff.mpr hwmo
        have := List.count_pos_iff.mpr hx
        have := hcnt w
        omega
      by_cases hrkm : rk = "moderators"
      · have hscan : addMemberScan m rk w =
            Sum.inl ⟨m.admins, m.moderators, m.members⟩ := by
          simp [addMemberScan, processRole, hwa, hwmo, hrkm]
        rw [hscan] at h
        injection h with h1
        exact ⟨h1.symm, Or.inr (Or.inl ⟨hrkm, hwmo⟩)⟩
      · have hscan : addMemberScan m rk w =
            Sum.inr ⟨m.admins, m.moderators.erase w, m.members⟩ := by
          simp [addMemberScan, processRole, hwa, hwmo, Ne.symm hrkm, hwme]
        rw [hscan] at h
        cases h
    · by_cases hwme : w ∈ m.members
      · by_cases hrkme : rk = "members"
        · have hscan : addMemberScan m rk w =
              Sum.inl ⟨m.admins, m.moderators, m.members⟩ := by
            simp [addMemberScan, processRole, hwa, hwmo, hwme, hrkme]
          rw [hscan] at h
          injection h with h1
          exact ⟨h1.symm, Or.inr (Or.inr ⟨hrkme, hwme⟩)⟩
        · have hscan : addMemberScan m rk w =
              Sum.inr ⟨m.admins, m.moderators, m.members.erase w⟩ := by
            simp [addMemberScan, processRole, hwa, hwmo, hwme, Ne.symm hrkme]
          rw [hscan] at h
          cases h
      · have hscan : addMemberScan m rk w =
            Sum.inr ⟨m.admins, m.moderators, m.members⟩ := by
          simp [addMemberScan, processRole, hwa, hwmo, hwme]
        rw [hscan] at h
        cases h

/-- Under the invariant, fall-through of `_add_member`'s loop leaves
buckets with no occurrence of the wallet at all. -/
theorem addMemberScan_inr_not_mem {m : Members} {rk w : String} {m' : Members}
    (hm : memberOnce m) (h : addMemberScan m rk w = Sum.inr m') :
    w ∉ m'.admins ∧ w ∉ m'.moderators ∧ w ∉ m'.members := by
  have hcnt := memberOnce_count hm
  have hnda : m.admins.Nodup := by
    rw [memberOnce] at hm
    exact (hm.of_append_left).of_append_left
  have hndmo : m.moderators.Nodup := by
    rw [memberOnce] at hm
    exact (hm.of_append_left).of_append_right
  have hndme : m.members.Nodup := by
    rw [memberOnce] at hm
    exact hm.of_append_right
  by_cases hwa : w ∈ m.admins
  · have hwmo : w ∉ m.moderators := by
      intro hx
      have := List.count_pos_iff.mpr hwa
      have := List.count_pos_iff.mpr hx
      have := hcnt w
      omega
    have hwme : w ∉ m.members := by
      intro hx
      have := List.count_pos_iff.mpr hwa
      have := List.count_pos_iff.mpr hx
      have := hcnt w
      omega
    by_cases hrka : rk = "admins"
    · have hscan : addMemberScan m rk w = Sum.inl m := by
        simp [addMemberScan, processRole, hwa, hrka]
      rw [hscan] at h
      cases h
    · have hscan : addMemberScan m rk w =
          Sum.inr ⟨m.admins.erase w, m.moderators, m.members⟩ := by
        simp [addMemberScan, processRole, hwa, Ne.symm hrka, hwmo, hwme]
      rw [hscan] at h
      injection h with h1
      rw [← h1]
      exact ⟨hnda.not_mem_erase, hwmo, hwme⟩
  · by_cases hwmo : w ∈ m.moderators
    · have hwme : w ∉ m.members := by
        intro hx
        have := List.count_pos_iff.mpr hwmo
        have := List.count_pos_iff.mpr hx
        have := hcnt w
        omega
      by_cases hrkm : rk = "moderators"
      · have hscan : addMemberScan m rk w =
            Sum.inl ⟨m.admins, m.moderators, m.members⟩ := by
          simp [addMemberScan, processRole, hwa, hwmo, hrkm]
        rw [hscan] at h
        cases h
      · have hscan : addMemberScan m rk w =
            Sum.inr ⟨m.admins, m.moderators.erase w, m.members⟩ := by
          simp [addMemberScan, processRole, hwa, hwmo, Ne.symm hrkm, hwme]
        rw [hscan] at h
        injection h with h1
        rw [← h1]
        exact ⟨hwa, hndmo.not_mem_erase, hwme⟩
    · by_cases hwme : w ∈ m.members
      · by_cases hrkme : rk = "members"
        · have hscan : addMemberScan m rk w =
              Sum.inl ⟨m.admins, m.moderators, m.members⟩ := by
            simp [addMemberScan, processRole, hwa, hwmo, hwme, hrkme]
          rw [hscan] at h
          cases h
        · have hscan : addMemberScan m rk w =
              Sum.inr ⟨m.admins, m.moderators, m.members.erase w⟩ := by
            simp [addMemberScan, processRole, hwa, hwmo, hwme, Ne.symm hrkme]
          rw [hscan] at h
          injection h with h1
          rw [← h1]
          exact ⟨hwa, hwmo, hndme.not_mem_erase⟩
      · have hscan : addMemberScan m rk w =
            Sum.inr ⟨m.admins, m.moderators, m.members⟩ := by
          simp [addMemberScan, processRole, hwa, hwmo, hwme]
        rw [hscan] at h
        injection h with h1
        rw [← h1]
        exact ⟨hwa, hwmo, hwme⟩

/-- `_add_member` when all guards pass: the result is governed by the
loop's outcome. -/
theorem addMember_noerror_eq (s : CState) {cid w : String} (lvl : String)
    (now : Int) {c : Community}
    (hc : lookupKey cid s.communities = some c) (hcid : cid ≠ "") (hw : w ≠ "")
    (hlvl : lvl ∈ (["member", "moderator", "admin"] : List String))
    (hauth : ¬ addMemberAuthFail s c lvl) :
    addMember s (some cid) (some w) lvl now =
      match addMemberScan c.members (lvl ++ "s") w with
      | Sum.inl m' =>
        ({ s with communities := setKey cid { c with members := m' } s.communities },
         mkSuccess (.addMemberRes cid w lvl
           ("Wallet is already a " ++ lvl ++ " of this community")))
      | Sum.inr m' =>
        ({ s with communities := setKey cid { c with members := appendRole m' (lvl ++ "s") w, stats := { c.stats with total_members := (appendRole m' (lvl ++ "s") w).admins.length + (appendRole m' (lvl ++ "s") w).moderators.length + (appendRole m' (lvl ++ "s") w).members.length } } s.communities },
         mkSuccess (.addMemberRes cid w lvl "Member added successfully")) := by
  rcases hscan : addMemberScan c.members (lvl ++ "s") w with m' | m' <;>
    simp [addMember, addMemberTail, hc, hcid, hw, hlvl, hauth, hscan]

/-- Claim C7: a successful `_add_member` immediately followed by
`_check_member_status` for the same wallet and community reports the
newly assigned role. -/
theorem C7_add_then_check (s : CState) (cid w lvl : String) (now : Int)
    (c : Community)
    (hc : lookupKey cid s.communities = some c)
    (hcid : cid ≠ "") (hw : w ≠ "")
    (hm : memberOnce c.members)
    (hlvl : lvl ∈ (["member", "moderator", "admin"] : List String))
    (hauth : ¬ addMemberAuthFail s c lvl) :
    (addMember s (some cid) (some w) lvl now).2.status = "success" ∧
    checkMemberStatus (addMember s (some cid) (some w) lvl now).1 (some cid) (some w) =
      mkSuccess (.memberStatusRes cid w true (some lvl)) := by
  have hcnt := memberOnce_count hm
  rw [addMember_noerror_eq s lvl now hc hcid hw hlvl hauth]
  rcases hscan : addMemberScan c.members (lvl ++ "s") w with m' | m'
  · obtain ⟨hme, hwhich⟩ := addMemberScan_inl_already hm hscan
    subst hme
    refine ⟨rfl, ?_⟩
    dsimp only
    simp only [List.mem_cons, List.mem_singleton, List.not_mem_nil, or_false] at hlvl
    rcases hlvl with rfl | rfl | rfl
    · rcases hwhich with ⟨habs, _⟩ | ⟨habs, _⟩ | ⟨_, hmem⟩
      · exact absurd habs (by decide)
      · exact absurd habs (by decide)
      · have hwa : w ∉ c.members.admins := by
          intro hx
          have := List.count_pos_iff.mpr hmem
          have := List.count_pos_iff.mpr hx
          have := hcnt w
          omega
        have hwmo : w ∉ c.members.moderators := by
          intro hx
          have := List.count_pos_iff.mpr hmem
          have := List.count_pos_iff.mpr hx
          have := hcnt w
          omega
        simp [checkMemberStatus, hcid, hw, hwa, hwmo, hmem]
    · rcases hwhich with ⟨habs, _⟩ | ⟨_, hmem⟩ | ⟨habs, _⟩
      · exact absurd habs (by decide)
      · have hwa : w ∉ c.members.admins := by
          intro hx
          have := List.count_pos_iff.mpr hmem
          have := List.count_pos_iff.mpr hx
          have := hcnt w
          omega
        simp [checkMemberStatus, hcid, hw, hwa, hmem]
      · exact absurd habs (by decide)
    · rcases hwhich with ⟨_, hmem⟩ | ⟨habs, _⟩ | ⟨habs, _⟩
      · simp [checkMemberStatus, hcid, hw, hmem]
      · exact absurd habs (by decide)
      · exact absurd habs (by decide)
  · obtain ⟨hna, hnmo, hnme⟩ := addMemberScan_inr_not_mem hm hscan
    refine ⟨rfl, ?_⟩
    dsimp only
    simp only [List.mem_cons, List.mem_singleton, List.not_mem_nil, or_false] at hlvl
    rcases hlvl with rfl | rfl | rfl
    · have happ : appendRole m' ("member" ++ "s") w = ⟨m'.admins, m'.moderators, m'.members ++ [w]⟩ := by
        simp [appendRole]
      rw [happ]
      simp [checkMemberStatus, hcid, hw, hna, hnmo, List.mem_append]
    · have happ : appendRole m' ("moderator" ++ "s") w = ⟨m'.admins, m'.moderators ++ [w], m'.members⟩ := by
        simp [appendRole]
      rw [happ]
      simp [checkMemberStatus, hcid, hw, hna, List.mem_append]
    · have happ : appendRole m' ("admin" ++ "s") w = ⟨m'.admins ++ [w], m'.moderators, m'.members⟩ := by
        simp [appendRole]
      rw [happ]
      simp [checkMemberStatus, hcid, hw, List.mem_append]

/-- Witness for C7: adding wallet `B` as member of the sample community
and immediately checking its status reports role "member". -/
theorem C7_add_then_check_witness :
    (addMember exState (some "c1") (some "B") "member" 5).2.status = "success" ∧
    checkMemberStatus (addMember exState (some "c1") (some "B") "member" 5).1
        (some "c1") (some "B") =
      mkSuccess (.memberStatusRes "c1" "B" true (some "member")) :=
  C7_add_then_check exState "c1" "B" "member" 5 exComm (by rfl) (by decide)
    (by decide) (by simp only [memberOnce]; decide) (by decide) (by decide)

/-! ## Status lemmas: every operation ends in a success or error envelope -/

theorem createCommunity_status (s : CState) (nm d : String) (ta : Option String)
    (mta : ℚ) (tt : String) (nca : Option String) (now : Int) :
    (createCommunity s nm d ta mta tt nca now).2.status = "success" ∨
    (createCommunity s nm d ta mta tt nca now).2.status = "error" := by
  unfold createCommunity
  split
  · exact Or.inr rfl
  · split
    · exact Or.inr rfl
    · exact Or.inl rfl

theorem configureRequirements_status (s : CState) (cidO taO : Option String)
    (mtaO : Option ℚ) (ttO ncaO : Option String) (now : Int) :
    (configureRequirements s cidO taO mtaO ttO ncaO now).2.status = "success" ∨
    (configureRequirements s cidO taO mtaO ttO ncaO now).2.status = "error" := by
  unfold configureRequirements
  split
  · exact Or.inr rfl
  · split
    · exact Or.inr rfl
    · split
      · exact Or.inr rfl
      · exact Or.inl rfl

theorem verifyAccess_ok_status {ora : Oracle} {s : CState} {cidO wO : Option String}
    {chain : String} {now : Int} {sv : CState} {rv : ToolResult}
    (h : verifyAccess ora s cidO wO chain now = .ok (sv, rv)) :
    rv.status = "success" ∨ rv.status = "error" := by
  unfold verifyAccess at h
  split at h
  · cases h
    exact Or.inr rfl
  · split at h
    · cases h
      exact Or.inr rfl
    · dsimp only at h
      split at h
      · cases h
        exact Or.inr rfl
      · split at h
        · cases h
          exact Or.inl rfl
        · split at h
          · cases h
            exact Or.inl rfl
          · split at h
            · exact absurd h (by simp)
            · cases h
              exact Or.inl rfl

theorem generateAccessToken_ok_status {ora : Oracle} {s : CState}
    {cidO wO : Option String} {lvl : String} {exp now : Int} {sv : CState}
    {rv : ToolResult}
    (h : generateAccessToken ora s cidO wO lvl exp now = .ok (sv, rv)) :
    rv.status = "success" ∨ rv.status = "error" := by
  unfold generateAccessToken at h
  split at h
  · cases h
    exact Or.inr rfl
  · split at h
    · cases h
      exact Or.inr rfl
    · split at h
      · cases h
        exact Or.inr rfl
      · split at h
        · exact absurd h (by simp)
        · split at h
          · cases h
            exact Or.inr rfl
          · cases h
            exact Or.inl rfl

theorem verifyToken_status (s : CState)
    (tok : Option (Except String TokenPayload)) (now : Int) :
    (verifyToken s tok now).status = "success" ∨
    (verifyToken s tok now).status = "error" := by
  unfold verifyToken
  split
  · exact Or.inr rfl
  · exact Or.inr rfl
  · split
    · exact Or.inr rfl
    · split
      · exact Or.inr rfl
      · split
        · exact Or.inr rfl
        · split
          · exact Or.inr rfl
          · split
            · exact Or.inr rfl
            · exact Or.inl rfl

theorem listCommunities_status (s : CState) (now : Int) :
    (listCommunities s now).2.status = "success" ∨
    (listCommunities s now).2.status = "error" :=
  Or.inl rfl

theorem getCommunityStats_status (s : CState) (cidO : Option String) (now : Int) :
    (getCommunityStats s cidO now).2.status = "success" ∨
    (getCommunityStats s cidO now).2.status = "error" := by
  unfold getCommunityStats
  split
  · exact Or.inr rfl
  · split
    · exact Or.inr rfl
    · exact Or.inl rfl

theorem addMember_status (s : CState) (cidO wO : Option String) (lvl : String)
    (now : Int) :
    (addMember s cidO wO lvl now).2.status = "success" ∨
    (addMember s cidO wO lvl now).2.status = "error" := by
  unfold addMember
  split
  · exact Or.inr rfl
  · split
    · exact Or.inr rfl
    · split
      · exact Or.inr rfl
      · split
        · exact Or.inr rfl
        · split
          · exact Or.inr rfl
          · dsimp only
            split
            · exact Or.inl rfl
            · simp only [addMemberTail]
              exact Or.inl rfl

theorem removeMember_status (s : CState) (cidO wO : Option String) (now : Int) :
    (removeMember s cidO wO now).2.status = "success" ∨
    (removeMember s cidO wO now).2.status = "error" := by
  unfold removeMember
  split
  · exact Or.inr rfl
  · split
    · exact Or.inr rfl
    · split
      · exact Or.inr rfl
      · dsimp only
        split
        · exact Or.inr rfl
        · exact Or.inl rfl

theorem checkMemberStatus_status (s : CState) (cidO wO : Option String) :
    (checkMemberStatus s cidO wO).status = "success" ∨
    (checkMemberStatus s cidO wO).status = "error" := by
  unfold checkMemberStatus
  split
  · exact Or.inr rfl
  · split
    · exact Or.inr rfl
    · split
      · exact Or.inr rfl
      · exact Or.inl rfl

theorem getMembers_status (s : CState) (cidO lvlO : Option String) :
    (getMembers s cidO lvlO).status = "success" ∨
    (getMembers s cidO lvlO).status = "error" := by
  unfold getMembers
  split
  · exact Or.inr rfl
  · split
    · exact Or.inr rfl
    · split
      · exact Or.inl rfl
      · split
        · exact Or.inl rfl
        · split
          · exact Or.inl rfl
          · split
            · exact Or.inl rfl
            · exact Or.inr rfl

/-- The action names `execute` dispatches on. -/
def knownActions : List String :=
  ["create_community", "configure_requirements", "verify_access",
   "generate_access_token", "verify_token", "list_communities",
   "get_community_stats", "add_member", "remove_member",
   "check_member_status", "get_members"]

/-- Claim C5: dispatcher totality. For every action and parameter set,
`execute` returns an envelope whose status is "success" or "error"
(exceptions raised by an operation — here, by the holdings lookups — are
caught at the dispatch boundary and converted to an error envelope), and
an action outside the known set yields the unknown-action error. -/
theorem C5_dispatcher_totality (ora : Oracle) (s : CState) (a : Args) (now : Int) :
    ((execute ora s a now).2.status = "success" ∨
      (execute ora s a now).2.status = "error")
    ∧ ((∀ n ∈ knownActions, a.action ≠ some n) →
        (execute ora s a now).2 =
          mkError ("Unknown token-gated community action: " ++ optStr a.action)) := by
  have part2 : (∀ n ∈ knownActions, a.action ≠ some n) →
      (execute ora s a now).2 =
        mkError ("Unknown token-gated community action: " ++ optStr a.action) := by
    intro hu
    have h1 := hu "create_community" (by simp [knownActions])
    have h2 := hu "configure_requirements" (by simp [knownActions])
    have h3 := hu "verify_access" (by simp [knownActions])
    have h4 := hu "generate_access_token" (by simp [knownActions])
    have h5 := hu "verify_token" (by simp [knownActions])
    have h6 := hu "list_communities" (by simp [knownActions])
    have h7 := hu "get_community_stats" (by simp [knownActions])
    have h8 := hu "add_member" (by simp [knownActions])
    have h9 := hu "remove_member" (by simp [knownActions])
    have h10 := hu "check_member_status" (by simp [knownActions])
    have h11 := hu "get_members" (by simp [knownActions])
    have hd : dispatchAction ora s a now =
        .ok (s, mkError ("Unknown token-gated community action: " ++ optStr a.action)) := by
      unfold dispatchAction
      rw [if_neg h1, if_neg h2, if_neg h3, if_neg h4, if_neg h5, if_neg h6,
        if_neg h7, if_neg h8, if_neg h9, if_neg h10, if_neg h11]
    unfold execute
    rw [hd]
  refine ⟨?_, part2⟩
  rcases hdisp : dispatchAction ora s a now with e | r
  · unfold execute
    rw [hdisp]
    exact Or.inr rfl
  · have hgoal : (execute ora s a now).2 = r.2 := by
      unfold execute
      rw [hdisp]
    rw [hgoal]
    unfold dispatchAction at hdisp
    by_cases h1 : a.action = some "create_community"
    · rw [if_pos h1] at hdisp
      injection hdisp with h'
      rw [← h']
      apply createCommunity_status
    rw [if_neg h1] at hdisp
    by_cases h2 : a.action = some "configure_requirements"
    · rw [if_pos h2] at hdisp
      injection hdisp with h'
      rw [← h']
      apply configureRequirements_status
    rw [if_neg h2] at hdisp
    by_cases h3 : a.action = some "verify_access"
    · rw [if_pos h3] at hdisp
      obtain ⟨sv, rv⟩ := r
      exact verifyAccess_ok_status hdisp
    rw [if_neg h3] at hdisp
    by_cases h4 : a.action = some "generate_access_token"
    · rw [if_pos h4] at hdisp
      obtain ⟨sv, rv⟩ := r
      exact generateAccessToken_ok_status hdisp
    rw [if_neg h4] at hdisp
    by_cases h5 : a.action = some "verify_token"
    · rw [if_pos h5] at hdisp
      injection hdisp with h'
      rw [← h']
      apply verifyToken_status
    rw [if_neg h5] at hdisp
    by_cases h6 : a.action = some "list_communities"
    · rw [if_pos h6] at hdisp
      injection hdisp with h'
      rw [← h']
      apply listCommunities_status
    rw [if_neg h6] at hdisp
    by_cases h7 : a.action = some "get_community_stats"
    · rw [if_pos h7] at hdisp
      injection hdisp with h'
      rw [← h']
      apply getCommunityStats_status
    rw [if_neg h7] at hdisp
    by_cases h8 : a.action = some "add_member"
    · rw [if_pos h8] at hdisp
      injection hdisp with h'
      rw [← h']
      apply addMember_status
    rw [if_neg h8] at hdisp
    by_cases h9 : a.action = some "remove_member"
    · rw [if_pos h9] at hdisp
      injection hdisp with h'
      rw [← h']
      apply removeMember_status
    rw [if_neg h9] at hdisp
    by_cases h10 : a.action = some "check_member_status"
    · rw [if_pos h10] at hdisp
      injection hdisp with h'
      rw [← h']
      apply checkMemberStatus_status
    rw [if_neg h10] at hdisp
    by_cases h11 : a.action = some "get_members"
    · rw [if_pos h11] at hdisp
      injection hdisp with h'
      rw [← h']
      apply getMembers_status
    rw [if_neg h11] at hdisp
    injection hdisp with h'
    rw [← h']
    exact Or.inr rfl

/-- An all-`none` argument record except for the action, for exercising
the dispatcher. -/
def mkActionArgs (act : Option String) : Args :=
  ⟨act, none, none, none, none, none, none, none, none, none, none, none, none⟩

/-- Witness for C5: an out-of-enum action yields the unknown-action
error envelope. -/
theorem C5_dispatcher_totality_witness :
    (execute exOracle exState (mkActionArgs (some "nonsense")) 5).2 =
      mkError "Unknown token-gated community action: nonsense" :=
  (C5_dispatcher_totality exOracle exState (mkActionArgs (some "nonsense")) 5).2
    (by decide)

/-- Modelled from the spec: the simulated holdings lookups
(`_simulate_token_holdings`, `_simulate_nft_holdings`,
`_simulate_multi_token_verification`) lie beyond the point where `src/`
truncates the file (it ends mid-statement at line 660); spec sections 1
and 8 describe them as deterministic simulations that return data
rather than raise, the example scenario giving wallet `W` holdings 10
and wallet `X` holdings 2. -/
def specSimOracle : Oracle :=
  ⟨fun w _ _ => .ok (if w = "W" then 10 else 2),
   fun _ _ _ => .ok [], fun _ _ _ => .ok true⟩

/-- The arguments of a dispatched `verify_access` call. -/
def mkVerifyArgs (cid w : String) : Args :=
  ⟨some "verify_access", some cid, none, none, none, none, none, none,
   some w, none, none, none, none⟩

/-- Counterexample to claim C8 as stated: with the holdings lookup
modelled from the spec, a dispatched `verify_access` for a non-member
wallet on a cache miss completes and yields a SUCCESS envelope — the
non-member verification path is not doomed to an error envelope. -/
theorem C8_counterexample_success_envelope :
    (execute specSimOracle exState (mkVerifyArgs "c1" "W") 100).2.status = "success"
    ∧ ("success" : String) ≠ "error" := by
  exact ⟨by rfl, by decide⟩

/-- Claim C8 (amended): on the non-member cache-miss path,
`_verify_access` invokes the holdings lookup; IF that lookup raises
(e.g. an `AttributeError` because `_simulate_token_holdings` were
missing), the exception escapes `_verify_access` and `execute` converts
it to an error envelope at the dispatch boundary — while with the
holdings lookup modelled from the spec the same path completes with a
success envelope. -/
theorem C8_nonmember_path (ora : Oracle) (s : CState) (cid w e : String)
    (c : Community) (now : Int)
    (hc : lookupKey cid s.communities = some c)
    (hcid : cid ≠ "") (hw : w ≠ "")
    (htt : c.requirements.token_type = "fungible")
    (hmem : c.isMemberWallet w = false)
    (hcache : cacheFresh s (cacheKey w cid "solana") now = none)
    (hora : ora.tokenHoldings w c.requirements.token_address "solana" = .error e) :
    execute ora s (mkVerifyArgs cid w) now =
        (s, mkError ("Error executing token-gated community action verify_access: " ++ e))
      ∧ (execute specSimOracle exState (mkVerifyArgs "c1" "W") 100).2.status =
        "success" := by
  have hva : verifyAccess ora s (some cid) (some w) "solana" now = .error e := by
    rw [verifyAccess_miss ora s hc hcid hw hmem hcache,
      computeVerification_fungible_raise cid w "solana" now htt hora]
  refine ⟨?_, by rfl⟩
  have hd : dispatchAction ora s (mkVerifyArgs cid w) now = .error e := by
    unfold dispatchAction
    rw [if_neg (by simp [mkVerifyArgs]), if_neg (by simp [mkVerifyArgs]),
      if_pos (by simp [mkVerifyArgs])]
    simpa [mkVerifyArgs] using hva
  unfold execute
  rw [hd]
  rfl

/-- A holdings lookup that raises, modelling the `AttributeError` that a
missing `_simulate_token_holdings` would produce. -/
def exRaiseOracle : Oracle :=
  ⟨fun _ _ _ => .error "AttributeError", fun _ _ _ => .error "AttributeError",
   fun _ _ _ => .error "AttributeError"⟩

/-- Witness for the amended C8 at a concrete raising lookup. -/
theorem C8_nonmember_path_witness :
    execute exRaiseOracle exState (mkVerifyArgs "c1" "W") 100 =
        (exState, mkError
          "Error executing token-gated community action verify_access: AttributeError")
      ∧ (execute specSimOracle exState (mkVerifyArgs "c1" "W") 100).2.status =
        "success" :=
  C8_nonmember_path exRaiseOracle exState "c1" "W" "AttributeError" exComm 100
    (by rfl) (by decide) (by decide) (by rfl) (by rfl) (by rfl) (by rfl)
